import Mathlib

/-!
Shallow embedding of the ft trading engine core
(src/trading_platform/trading_engine/trading_engine.cpp together with the
protocol header core/protocol.h), restricted to the order-lifecycle state
that the engine itself maintains: the order registry, the command dispatch
path, and the gateway callbacks.  External collaborators (contract table,
risk manager verdicts, gateway push results) are modelled as an oracle
environment; the calls the engine makes into them are recorded as an event
trace so that statements about which hooks fired can be made precisely.
Floating-point prices are carried opaquely (the engine never inspects them,
it only copies and logs them), so they are represented by an integer field
standing for the raw payload.
-/

namespace ft

/-- Instrument metadata (core/contract.h is not under src/); the engine code
modelled here reads only the dense index (cancel_for_ticker) and the ticker
string (logging), so only those fields are kept. -/
structure Contract where
  index : Nat
  ticker : String
deriving Repr, DecidableEq

/-- Magic constant from core/protocol.h: TRADER_CMD_MAGIC = 0x1709394. -/
def TRADER_CMD_MAGIC : Nat := 0x1709394

/-- TraderCmdType values from core/protocol.h. -/
def CMD_NEW_ORDER : Nat := 1

/-- TraderCmdType: cancel a single order by id. -/
def CMD_CANCEL_ORDER : Nat := 2

/-- TraderCmdType: cancel every order on one ticker. -/
def CMD_CANCEL_TICKER : Nat := 3

/-- TraderCmdType: cancel every live order. -/
def CMD_CANCEL_ALL : Nat := 4

/-- Modelled from the spec: core/error_code.h is not under src/.  The spec
(§7) fixes NO_ERROR = 0 and requires the remaining codes only to be distinct
nonzero integers, so representative values are chosen. -/
def NO_ERROR : Int := 0

/-- Modelled from the spec: gateway declined to accept the push (pre-broker). -/
def ERR_SEND_FAILED : Int := 1

/-- Modelled from the spec: broker rejected the order after accepting the push. -/
def ERR_REJECTED : Int := 2

/-- Modelled from the spec: the TradeType enum is declared in a header not
under src/; the spec (§4.3) lists SECONDARY_MARKET and the four
primary-market subscription types, which are exactly the tags
trading_engine.cpp branches on. -/
inductive TradeType where
  | SECONDARY_MARKET
  | ACQUIRED_STOCK
  | RELEASED_STOCK
  | CASH_SUBSTITUTION
  | PRIMARY_MARKET
deriving Repr, DecidableEq

/-- Modelled from the spec: OrderStatus enum (§3), declared in a header not
under src/.  trading_engine.cpp itself only ever assigns SUBMITTING. -/
inductive OrderStatus where
  | SUBMITTING
  | ACCEPTED
  | CANCELING
  | DONE
deriving Repr, DecidableEq

/-- TraderOrderReq from core/protocol.h (the new-order payload).  The double
price is carried opaquely as an integer payload; the engine never computes
with it. -/
structure TraderOrderReq where
  user_order_id : Nat
  ticker_index : Nat
  direction : Nat
  offset : Nat
  type : Nat
  volume : Int
  price : Int
  flags : Nat
  without_check : Bool
deriving Repr, DecidableEq

/-- TraderCancelReq from core/protocol.h. -/
structure TraderCancelReq where
  order_id : Nat
deriving Repr, DecidableEq

/-- TraderCancelTickerReq from core/protocol.h. -/
structure TraderCancelTickerReq where
  ticker_index : Nat
deriving Repr, DecidableEq

/-- TraderCommand from core/protocol.h.  The C union is modelled with all
three payload alternatives present; execute_cmd reads only the member
selected by the type tag, like the C++ code does. -/
structure TraderCommand where
  magic : Nat
  type : Nat
  strategy_id : Nat
  order_req : TraderOrderReq
  cancel_req : TraderCancelReq
  cancel_ticker_req : TraderCancelTickerReq
deriving Repr, DecidableEq

/-- OrderReq from core/protocol.h (engine to gateway).  The non-owning
Contract pointer is modelled by embedding the Contract value. -/
structure OrderReq where
  engine_order_id : Nat
  contract : Contract
  type : Nat
  direction : Nat
  offset : Nat
  volume : Int
  price : Int
  flags : Nat
deriving Repr, DecidableEq

/-- Order, the registry record (declared in a header not under src/; fields
as read and written by trading_engine.cpp, which value-initializes the
record with Order{} before filling it in send_order). -/
structure Order where
  req : OrderReq
  user_order_id : Nat
  strategy_id : Nat
  order_id : Nat
  status : OrderStatus
  accepted : Bool
  traded_volume : Int
  canceled_volume : Int
deriving Repr, DecidableEq

/-- OrderAcceptedRsp fields read by trading_engine.cpp. -/
structure OrderAcceptedRsp where
  engine_order_id : Nat
  order_id : Nat
deriving Repr, DecidableEq

/-- OrderRejectedRsp fields read by trading_engine.cpp. -/
structure OrderRejectedRsp where
  engine_order_id : Nat
  reason : String
deriving Repr, DecidableEq

/-- OrderTradedRsp fields read by trading_engine.cpp. -/
structure OrderTradedRsp where
  engine_order_id : Nat
  order_id : Nat
  trade_type : TradeType
  volume : Int
  price : Int
deriving Repr, DecidableEq

/-- OrderCanceledRsp fields read by trading_engine.cpp. -/
structure OrderCanceledRsp where
  engine_order_id : Nat
  canceled_volume : Int
deriving Repr, DecidableEq

/-- Observable calls the engine makes into its collaborators: risk-manager
hooks, gateway pushes, and the log statements the claims mention (error and
warn level; info/debug logging is not observable to any claim). -/
inductive Event where
  | riskCheckOrderReq (engine_order_id : Nat)
  | riskOnOrderRejected (engine_order_id : Nat) (code : Int)
  | riskOnOrderSent (engine_order_id : Nat)
  | riskOnOrderAccepted (engine_order_id : Nat)
  | riskOnOrderTraded (engine_order_id : Nat) (volume : Int)
  | riskOnOrderCanceled (engine_order_id : Nat) (volume : Int)
  | riskOnOrderCompleted (engine_order_id : Nat)
  | gatewaySendOrder (engine_order_id : Nat)
  | gatewayCancelOrder (order_id : Nat)
  | logError
  | logWarn
deriving Repr, DecidableEq

/-- The order registry: std::map of engine_order_id to Order, modelled as an
association list with unique keys (std::map keys are unique by type). -/
abbrev OrderMap := List (Nat × Order)

/-- order_map_.find. -/
def mapFind : OrderMap → Nat → Option Order
  | [], _ => none
  | (k0, v0) :: rest, k => if k0 = k then some v0 else mapFind rest k

/-- order_map_.erase(iter): removes the entry for the key.  (On the
unique-key maps the engine builds this drops at most one entry.) -/
def mapErase : OrderMap → Nat → OrderMap
  | [], _ => []
  | (k0, v0) :: rest, k =>
    if k0 = k then mapErase rest k else (k0, v0) :: mapErase rest k

/-- Assignment through the iterator obtained from find: replaces the stored
Order at the key, leaving every other entry untouched. -/
def mapUpdate : OrderMap → Nat → Order → OrderMap
  | [], _, _ => []
  | (k0, v0) :: rest, k, v =>
    if k0 = k then (k0, v) :: mapUpdate rest k v else (k0, v0) :: mapUpdate rest k v

/-- order_map_.emplace(key, order): inserts only when the key is absent. -/
def mapEmplace (m : OrderMap) (k : Nat) (v : Order) : OrderMap :=
  match mapFind m k with
  | some _ => m
  | none => m ++ [(k, v)]

/-- The mutable engine state the claims range over: the registry and the
engine-order-id counter (next_engine_order_id is declared in the header, not
under src/; the spec fixes it as a monotonically increasing engine-assigned
counter). -/
structure EngineState where
  order_map : OrderMap
  next_order_id : Nat
deriving Repr, DecidableEq

/-- Oracle environment: the external collaborators send_order consults.
ContractTable::get_by_index, RiskManager::check_order_req and
Gateway::send_order are outside the engine; their verdicts are inputs. -/
structure Env where
  contract_table : Nat → Option Contract
  risk_check : Order → Int
  gateway_accepts : OrderReq → Bool

/-- The Order record built at the top of TradingEngine::send_order
(trading_engine.cpp lines 189-201): Order{} value-initialization followed by
the field assignments from the command. -/
def make_order (ctr : Contract) (eoid : Nat) (cmd : TraderCommand) : Order :=
  { req := { engine_order_id := eoid
             contract := ctr
             direction := cmd.order_req.direction
             offset := cmd.order_req.offset
             volume := cmd.order_req.volume
             type := cmd.order_req.type
             price := cmd.order_req.price
             flags := cmd.order_req.flags }
    user_order_id := cmd.order_req.user_order_id
    strategy_id := cmd.strategy_id
    order_id := 0
    status := OrderStatus.SUBMITTING
    accepted := false
    traded_volume := 0
    canceled_volume := 0 }

/-- TradingEngine::send_order (trading_engine.cpp lines 182-235).  Returns
the bool result, the successor state and the trace of external calls.  The
contract lookup happens before the order is built (and before the counter is
consumed); the risk check runs only when without_check is unset; the gateway
push is attempted afterwards; only on a successful push is the order
emplaced and on_order_sent fired. -/
def send_order (env : Env) (st : EngineState) (cmd : TraderCommand) :
    Bool × EngineState × List Event :=
  match env.contract_table cmd.order_req.ticker_index with
  | none => (false, st, [Event.logError])
  | some ctr =>
    let eoid := st.next_order_id
    let st1 : EngineState := { st with next_order_id := st.next_order_id + 1 }
    let order := make_order ctr eoid cmd
    let checkEvs : List Event :=
      if cmd.order_req.without_check then [] else [Event.riskCheckOrderReq eoid]
    if cmd.order_req.without_check = false ∧ env.risk_check order ≠ NO_ERROR then
      (false, st1,
       checkEvs ++ [Event.logError, Event.riskOnOrderRejected eoid (env.risk_check order)])
    else
      let callEvs := checkEvs ++ [Event.gatewaySendOrder eoid]
      if env.gateway_accepts order.req = false then
        (false, st1,
         callEvs ++ [Event.logError, Event.riskOnOrderRejected eoid ERR_SEND_FAILED])
      else
        (true,
         { st1 with order_map := mapEmplace st1.order_map eoid order },
         callEvs ++ [Event.riskOnOrderSent eoid])

/-- TradingEngine::cancel_order (trading_engine.cpp lines 237-239): forwards
the id it was given straight to gateway_->cancel_order. -/
def cancel_order (st : EngineState) (order_id : Nat) : EngineState × List Event :=
  (st, [Event.gatewayCancelOrder order_id])

/-- TradingEngine::cancel_for_ticker (lines 241-248): scans the registry and
issues one gateway cancel, with the broker order_id stored in the Order, for
every order on the ticker. -/
def cancel_for_ticker (st : EngineState) (ticker_index : Nat) : EngineState × List Event :=
  (st,
   (st.order_map.filter (fun kv => kv.2.req.contract.index == ticker_index)).map
     (fun kv => Event.gatewayCancelOrder kv.2.order_id))

/-- TradingEngine::cancel_all (lines 250-256). -/
def cancel_all (st : EngineState) : EngineState × List Event :=
  (st, st.order_map.map (fun kv => Event.gatewayCancelOrder kv.2.order_id))

/-- TradingEngine::execute_cmd (trading_engine.cpp lines 148-180): magic
check, then dispatch on the type tag; wrong magic and unknown type are
error-logged and dropped. -/
def execute_cmd (env : Env) (st : EngineState) (cmd : TraderCommand) :
    EngineState × List Event :=
  if cmd.magic ≠ TRADER_CMD_MAGIC then (st, [Event.logError])
  else if cmd.type = CMD_NEW_ORDER then
    let r := send_order env st cmd
    (r.2.1, r.2.2)
  else if cmd.type = CMD_CANCEL_ORDER then cancel_order st cmd.cancel_req.order_id
  else if cmd.type = CMD_CANCEL_TICKER then
    cancel_for_ticker st cmd.cancel_ticker_req.ticker_index
  else if cmd.type = CMD_CANCEL_ALL then cancel_all st
  else (st, [Event.logError])

/-- TradingEngine::on_order_accepted (trading_engine.cpp lines 312-335):
unknown id is warn-logged and dropped; an already-accepted order returns
silently; otherwise the broker order_id is stored, accepted is latched and
the risk hook fires. -/
def on_order_accepted (st : EngineState) (rsp : OrderAcceptedRsp) :
    EngineState × List Event :=
  match mapFind st.order_map rsp.engine_order_id with
  | none => (st, [Event.logWarn])
  | some order =>
    if order.accepted then (st, [])
    else
      ({ st with order_map := mapUpdate st.order_map rsp.engine_order_id
                   { order with order_id := rsp.order_id, accepted := true } },
       [Event.riskOnOrderAccepted rsp.engine_order_id])

/-- TradingEngine::on_order_rejected (lines 337-358): unknown id dropped with
a warn; otherwise the risk rejection hook fires with ERR_REJECTED, the event
is error-logged and the order is erased unconditionally. -/
def on_order_rejected (st : EngineState) (rsp : OrderRejectedRsp) :
    EngineState × List Event :=
  match mapFind st.order_map rsp.engine_order_id with
  | none => (st, [Event.logWarn])
  | some _ =>
    ({ st with order_map := mapErase st.order_map rsp.engine_order_id },
     [Event.riskOnOrderRejected rsp.engine_order_id ERR_REJECTED, Event.logError])

/-- Tail of TradingEngine::on_secondary_market_traded (lines 433-456) after
the acceptance latch: store the broker order_id, accumulate the trade volume
into traded_volume, fire on_order_traded, then test the terminal condition
and on terminal fire on_order_completed and erase. -/
def secondary_update (st : EngineState) (rsp : OrderTradedRsp) (order : Order)
    (acceptEvs : List Event) : EngineState × List Event :=
  let order2 := { order with order_id := rsp.order_id
                             traded_volume := order.traded_volume + rsp.volume }
  if order2.traded_volume + order2.canceled_volume = order2.req.volume then
    ({ st with order_map := mapErase st.order_map rsp.engine_order_id },
     acceptEvs ++ [Event.riskOnOrderTraded rsp.engine_order_id rsp.volume,
                   Event.riskOnOrderCompleted rsp.engine_order_id])
  else
    ({ st with order_map := mapUpdate st.order_map rsp.engine_order_id order2 },
     acceptEvs ++ [Event.riskOnOrderTraded rsp.engine_order_id rsp.volume])

/-- TradingEngine::on_secondary_market_traded (trading_engine.cpp lines
409-457): unknown id warn-logged and dropped; a first trade latches
acceptance exactly like on_order_accepted would. -/
def on_secondary_market_traded (st : EngineState) (rsp : OrderTradedRsp) :
    EngineState × List Event :=
  match mapFind st.order_map rsp.engine_order_id with
  | none => (st, [Event.logWarn])
  | some order =>
    if order.accepted then secondary_update st rsp order []
    else secondary_update st rsp { order with accepted := true }
      [Event.riskOnOrderAccepted rsp.engine_order_id]

/-- Tail of TradingEngine::on_primary_market_traded (lines 390-406) after the
acceptance latch: store the broker order_id, then branch on the trade type.
The three subscription legs fire on_order_traded and keep the order;
PRIMARY_MARKET overwrites traded_volume, fires on_order_traded and erases
(the on_order_completed call is commented out in the source); any other tag
falls through the if-else chain leaving the order in place with no risk
call. -/
def primary_update (st : EngineState) (rsp : OrderTradedRsp) (order : Order)
    (acceptEvs : List Event) : EngineState × List Event :=
  let order1 := { order with order_id := rsp.order_id }
  match rsp.trade_type with
  | TradeType.ACQUIRED_STOCK =>
      ({ st with order_map := mapUpdate st.order_map rsp.engine_order_id order1 },
       acceptEvs ++ [Event.riskOnOrderTraded rsp.engine_order_id rsp.volume])
  | TradeType.RELEASED_STOCK =>
      ({ st with order_map := mapUpdate st.order_map rsp.engine_order_id order1 },
       acceptEvs ++ [Event.riskOnOrderTraded rsp.engine_order_id rsp.volume])
  | TradeType.CASH_SUBSTITUTION =>
      ({ st with order_map := mapUpdate st.order_map rsp.engine_order_id order1 },
       acceptEvs ++ [Event.riskOnOrderTraded rsp.engine_order_id rsp.volume])
  | TradeType.PRIMARY_MARKET =>
      ({ st with order_map := mapErase st.order_map rsp.engine_order_id },
       acceptEvs ++ [Event.riskOnOrderTraded rsp.engine_order_id rsp.volume])
  | TradeType.SECONDARY_MARKET =>
      ({ st with order_map := mapUpdate st.order_map rsp.engine_order_id order1 },
       acceptEvs)

/-- TradingEngine::on_primary_market_traded (trading_engine.cpp lines
367-407): unknown id warn-logged and dropped; a first trade latches
acceptance. -/
def on_primary_market_traded (st : EngineState) (rsp : OrderTradedRsp) :
    EngineState × List Event :=
  match mapFind st.order_map rsp.engine_order_id with
  | none => (st, [Event.logWarn])
  | some order =>
    if order.accepted then primary_update st rsp order []
    else primary_update st rsp { order with accepted := true }
      [Event.riskOnOrderAccepted rsp.engine_order_id]

/-- TradingEngine::on_order_traded (trading_engine.cpp lines 360-365):
dispatch on the trade_type tag. -/
def on_order_traded (st : EngineState) (rsp : OrderTradedRsp) :
    EngineState × List Event :=
  if rsp.trade_type = TradeType.SECONDARY_MARKET then on_secondary_market_traded st rsp
  else on_primary_market_traded st rsp

/-- TradingEngine::on_order_canceled (trading_engine.cpp lines 459-491):
unknown id warn-logged and dropped; otherwise canceled_volume is assigned
(not accumulated) from the response, on_order_canceled fires, and the
terminal condition is tested exactly as in the traded path. -/
def on_order_canceled (st : EngineState) (rsp : OrderCanceledRsp) :
    EngineState × List Event :=
  match mapFind st.order_map rsp.engine_order_id with
  | none => (st, [Event.logWarn])
  | some order =>
    let order1 := { order with canceled_volume := rsp.canceled_volume }
    if order1.traded_volume + order1.canceled_volume = order1.req.volume then
      ({ st with order_map := mapErase st.order_map rsp.engine_order_id },
       [Event.riskOnOrderCanceled rsp.engine_order_id rsp.canceled_volume,
        Event.riskOnOrderCompleted rsp.engine_order_id])
    else
      ({ st with order_map := mapUpdate st.order_map rsp.engine_order_id order1 },
       [Event.riskOnOrderCanceled rsp.engine_order_id rsp.canceled_volume])

/-- TradingEngine::on_order_cancel_rejected (lines 493-498): log only. -/
def on_order_cancel_rejected (st : EngineState) : EngineState × List Event :=
  (st, [Event.logWarn])

/-- One gateway callback, as delivered by the broker driver thread. -/
inductive Callback where
  | accepted (rsp : OrderAcceptedRsp)
  | rejected (rsp : OrderRejectedRsp)
  | traded (rsp : OrderTradedRsp)
  | canceled (rsp : OrderCanceledRsp)
  | cancelRejected
deriving Repr, DecidableEq

/-- Dispatch of a single gateway callback into the engine (each handler runs
under the registry mutex, so callbacks are serialized; a run is a list). -/
def run_callback (st : EngineState) : Callback → EngineState × List Event
  | Callback.accepted rsp => on_order_accepted st rsp
  | Callback.rejected rsp => on_order_rejected st rsp
  | Callback.traded rsp => on_order_traded st rsp
  | Callback.canceled rsp => on_order_canceled st rsp
  | Callback.cancelRejected => on_order_cancel_rejected st

/-- A serialized sequence of gateway callbacks, with the traces concatenated. -/
def run_callbacks (st : EngineState) : List Callback → EngineState × List Event
  | [] => (st, [])
  | cb :: rest =>
    let r := run_callback st cb
    let r2 := run_callbacks r.1 rest
    (r2.1, r.2 ++ r2.2)

/-- An externally driven engine step: either a command from the channel or a
gateway callback. -/
inductive Action where
  | cmd (c : TraderCommand)
  | callback (cb : Callback)
deriving Repr, DecidableEq

/-- One engine step. -/
def engine_step (env : Env) (st : EngineState) : Action → EngineState × List Event
  | Action.cmd c => execute_cmd env st c
  | Action.callback cb => run_callback st cb

/-- A serialized sequence of engine steps. -/
def engine_run (env : Env) : EngineState → List Action → EngineState × List Event
  | st, [] => (st, [])
  | st, a :: as =>
    let r := engine_step env st a
    let r2 := engine_run env r.1 as
    (r2.1, r.2 ++ r2.2)

/-- Number of occurrences of one event in a trace. -/
def countEvent (evs : List Event) (e : Event) : Nat :=
  (evs.filter (fun x => x == e)).length

/-! ### Registry map lemmas -/

theorem mapFind_mapErase_self (m : OrderMap) (k : Nat) :
    mapFind (mapErase m k) k = none := by
  induction m with
  | nil => rfl
  | cons kv rest ih =>
    obtain ⟨k0, v0⟩ := kv
    by_cases h : k0 = k <;> simp [mapErase, mapFind, h, ih]

theorem mapFind_mapErase_ne (m : OrderMap) (k k' : Nat) (h : k' ≠ k) :
    mapFind (mapErase m k) k' = mapFind m k' := by
  induction m with
  | nil => rfl
  | cons kv rest ih =>
    obtain ⟨k0, v0⟩ := kv
    have hne : ¬ k = k' := fun hk => h hk.symm
    by_cases h0 : k0 = k
    · simp [mapErase, mapFind, h0, hne, ih]
    · by_cases h1 : k0 = k'
      · simp [mapErase, mapFind, h0, h1, h]
      · simp [mapErase, mapFind, h0, h1, ih]

theorem mapFind_mapUpdate_self (m : OrderMap) (k : Nat) (v o : Order)
    (h : mapFind m k = some o) : mapFind (mapUpdate m k v) k = some v := by
  induction m with
  | nil => simp [mapFind] at h
  | cons kv rest ih =>
    obtain ⟨k0, v0⟩ := kv
    by_cases h0 : k0 = k
    · simp [mapUpdate, mapFind, h0]
    · simp only [mapFind, if_neg h0] at h
      simpa [mapUpdate, mapFind, h0] using ih h

theorem mapFind_mapUpdate_ne (m : OrderMap) (k k' : Nat) (v : Order) (h : k' ≠ k) :
    mapFind (mapUpdate m k v) k' = mapFind m k' := by
  induction m with
  | nil => rfl
  | cons kv rest ih =>
    obtain ⟨k0, v0⟩ := kv
    have hne : ¬ k = k' := fun hk => h hk.symm
    by_cases h0 : k0 = k
    · simp [mapUpdate, mapFind, h0, hne, ih]
    · by_cases h1 : k0 = k'
      · simp [mapUpdate, mapFind, h0, h1, h]
      · simp [mapUpdate, mapFind, h0, h1, ih]

theorem mem_mapErase (m : OrderMap) (k : Nat) (kv : Nat × Order)
    (h : kv ∈ mapErase m k) : kv ∈ m := by
  induction m with
  | nil => simp [mapErase] at h
  | cons kv0 rest ih =>
    obtain ⟨k0, v0⟩ := kv0
    by_cases h0 : k0 = k
    · simp only [mapErase, if_pos h0] at h
      exact List.mem_cons_of_mem _ (ih h)
    · simp only [mapErase, if_neg h0] at h
      rcases List.mem_cons.mp h with h | h
      · exact List.mem_cons.mpr (Or.inl h)
      · exact List.mem_cons_of_mem _ (ih h)

theorem mem_mapUpdate (m : OrderMap) (k : Nat) (v : Order) (kv : Nat × Order)
    (h : kv ∈ mapUpdate m k v) : kv ∈ m ∨ kv.2 = v := by
  induction m with
  | nil => simp [mapUpdate] at h
  | cons kv0 rest ih =>
    obtain ⟨k0, v0⟩ := kv0
    by_cases h0 : k0 = k
    · simp only [mapUpdate, if_pos h0, List.mem_cons] at h
      rcases h with h | h
      · exact Or.inr (by simp [h])
      · rcases ih h with h | h
        · exact Or.inl (List.mem_cons_of_mem _ h)
        · exact Or.inr h
    · simp only [mapUpdate, if_neg h0, List.mem_cons] at h
      rcases h with h | h
      · exact Or.inl (by simp [h])
      · rcases ih h with h | h
        · exact Or.inl (List.mem_cons_of_mem _ h)
        · exact Or.inr h

theorem mem_mapEmplace (m : OrderMap) (k : Nat) (v : Order) (kv : Nat × Order)
    (h : kv ∈ mapEmplace m k v) : kv ∈ m ∨ kv = (k, v) := by
  unfold mapEmplace at h
  cases hf : mapFind m k with
  | some o => rw [hf] at h; exact Or.inl h
  | none =>
    rw [hf] at h
    rcases List.mem_append.mp h with h | h
    · exact Or.inl h
    · simp at h; exact Or.inr (by simp [h])

/-! ### Event-count lemmas -/

theorem countEvent_nil (e : Event) : countEvent [] e = 0 := rfl

theorem countEvent_append (a b : List Event) (e : Event) :
    countEvent (a ++ b) e = countEvent a e + countEvent b e := by
  simp [countEvent, List.filter_append]

theorem countEvent_cons (x : Event) (a : List Event) (e : Event) :
    countEvent (x :: a) e = (if x = e then 1 else 0) + countEvent a e := by
  by_cases h : x = e <;> simp [countEvent, List.filter_cons, h, Nat.add_comm]

/-! ### Concrete fixtures used by witnesses and counterexamples -/

/-- Environment of the happy-path scenario (spec §8): one contract at dense
index 7, a risk chain that passes everything, a gateway that accepts. -/
def envEx : Env :=
  { contract_table := fun i => if i = 7 then some { index := 7, ticker := "IF2007" } else none
    risk_check := fun _ => 0
    gateway_accepts := fun _ => true }

/-- The spec §8 happy-path new-order payload: ticker 7, volume 10. -/
def orderReqEx : TraderOrderReq :=
  { user_order_id := 11, ticker_index := 7, direction := 0, offset := 0, type := 0,
    volume := 10, price := 100, flags := 0, without_check := false }

/-- The spec §8 happy-path new-order command. -/
def cmdEx : TraderCommand :=
  { magic := TRADER_CMD_MAGIC, type := CMD_NEW_ORDER, strategy_id := 1,
    order_req := orderReqEx, cancel_req := { order_id := 0 },
    cancel_ticker_req := { ticker_index := 0 } }

/-- Fresh engine: empty registry, counter at 1. -/
def stEmpty : EngineState := { order_map := [], next_order_id := 1 }

/-- A registered order: engine id 1, broker id 555, volume 10, nothing
filled yet. -/
def orderEx : Order :=
  { req := { engine_order_id := 1, contract := { index := 7, ticker := "IF2007" },
             type := 0, direction := 0, offset := 0, volume := 10, price := 100, flags := 0 }
    user_order_id := 11, strategy_id := 1, order_id := 555
    status := OrderStatus.SUBMITTING, accepted := true
    traded_volume := 0, canceled_volume := 0 }

/-- Registry holding exactly orderEx under engine id 1. -/
def stOne : EngineState := { order_map := [(1, orderEx)], next_order_id := 2 }

/-! ### Claim C7 -/

/-- Claim C7: a command record whose magic differs from 0x1709394, or whose
type is none of the four known command types, is error-logged and dropped by
execute_cmd: the engine state (in particular the registry) is unchanged and
no gateway call is made. -/
theorem execute_cmd_drops_bad_records (env : Env) (st : EngineState) (cmd : TraderCommand)
    (h : cmd.magic ≠ TRADER_CMD_MAGIC ∨
      (cmd.type ≠ CMD_NEW_ORDER ∧ cmd.type ≠ CMD_CANCEL_ORDER ∧
       cmd.type ≠ CMD_CANCEL_TICKER ∧ cmd.type ≠ CMD_CANCEL_ALL)) :
    (execute_cmd env st cmd).1 = st ∧
    (execute_cmd env st cmd).2 = [Event.logError] ∧
    (∀ k, Event.gatewaySendOrder k ∉ (execute_cmd env st cmd).2) ∧
    (∀ k, Event.gatewayCancelOrder k ∉ (execute_cmd env st cmd).2) := by
  have key : execute_cmd env st cmd = (st, [Event.logError]) := by
    rcases h with h | ⟨h1, h2, h3, h4⟩
    · simp [execute_cmd, h]
    · by_cases hm : cmd.magic = TRADER_CMD_MAGIC <;>
        simp [execute_cmd, hm, h1, h2, h3, h4]
  refine ⟨by rw [key], by rw [key], ?_, ?_⟩ <;> intro k <;> rw [key] <;> simp

/-- Concrete instance of claim C7: the happy-path command with its magic
zeroed out is dropped on the fresh engine. -/
theorem execute_cmd_drops_bad_records_witness :
    ({ cmdEx with magic := 0 } : TraderCommand).magic ≠ TRADER_CMD_MAGIC ∧
    ((execute_cmd envEx stEmpty { cmdEx with magic := 0 }).1 = stEmpty ∧
     (execute_cmd envEx stEmpty { cmdEx with magic := 0 }).2 = [Event.logError] ∧
     (∀ k, Event.gatewaySendOrder k ∉ (execute_cmd envEx stEmpty { cmdEx with magic := 0 }).2) ∧
     (∀ k, Event.gatewayCancelOrder k ∉ (execute_cmd envEx stEmpty { cmdEx with magic := 0 }).2)) :=
  ⟨by decide,
   execute_cmd_drops_bad_records envEx stEmpty { cmdEx with magic := 0 } (Or.inl (by decide))⟩

/-! ### Claim C10 -/

/-- Claim C10: a new-order command whose ticker_index has no entry in the
contract table makes send_order return false immediately (the contract
lookup precedes the registry mutex, the risk hooks and the gateway push):
the result is exactly false with the engine state untouched and an error log
as the only observable effect, so no risk hook fires, no gateway call is
made and the registry is unchanged. -/
theorem send_order_unknown_contract (env : Env) (st : EngineState) (cmd : TraderCommand)
    (h : env.contract_table cmd.order_req.ticker_index = none) :
    send_order env st cmd = (false, st, [Event.logError]) := by
  simp [send_order, h]

/-- Concrete instance of claim C10: ticker 9 is absent from the table. -/
theorem send_order_unknown_contract_witness :
    envEx.contract_table
      ({ cmdEx with order_req := { orderReqEx with ticker_index := 9 } }
        : TraderCommand).order_req.ticker_index = none ∧
    send_order envEx stEmpty { cmdEx with order_req := { orderReqEx with ticker_index := 9 } } =
      (false, stEmpty, [Event.logError]) :=
  ⟨by decide,
   send_order_unknown_contract envEx stEmpty
     { cmdEx with order_req := { orderReqEx with ticker_index := 9 } } (by decide)⟩

/-! ### Claim C3 -/

/-- Counterexample to claim C3: with engine id 1 mapped to an order whose
broker-assigned order_id is 555, cancel_order 1 sends 1 (the id received in
the command) to the gateway, not the broker id 555 read from the registry. -/
theorem cancel_order_ignores_registry_broker_id :
    mapFind stOne.order_map 1 = some orderEx ∧
    orderEx.order_id = 555 ∧
    cancel_order stOne 1 = (stOne, [Event.gatewayCancelOrder 1]) ∧
    Event.gatewayCancelOrder 555 ∉ (cancel_order stOne 1).2 := by
  refine ⟨rfl, rfl, rfl, ?_⟩
  simp [cancel_order]

/-- Claim C3 (amended): cancel_order forwards the id received in the command
directly to the gateway, without reading the Order record from the registry;
the broker-assigned order_id stored in the Order is not consulted. -/
theorem cancel_order_forwards_given_id (st : EngineState) (oid : Nat) :
    cancel_order st oid = (st, [Event.gatewayCancelOrder oid]) := rfl

/-! ### Claim C8 -/

/-- Claim C8: every gateway callback (accepted, rejected, traded of either
market type, canceled) whose engine_order_id is not a key of the registry is
warn-logged and dropped: the engine state, hence the registry and every
order, is unchanged and the single warn log is the whole trace, so no risk
hook is invoked. -/
theorem unknown_id_callbacks_dropped (st : EngineState)
    (a : OrderAcceptedRsp) (r : OrderRejectedRsp) (t : OrderTradedRsp) (c : OrderCanceledRsp)
    (ha : mapFind st.order_map a.engine_order_id = none)
    (hr : mapFind st.order_map r.engine_order_id = none)
    (ht : mapFind st.order_map t.engine_order_id = none)
    (hc : mapFind st.order_map c.engine_order_id = none) :
    on_order_accepted st a = (st, [Event.logWarn]) ∧
    on_order_rejected st r = (st, [Event.logWarn]) ∧
    on_order_traded st t = (st, [Event.logWarn]) ∧
    on_order_canceled st c = (st, [Event.logWarn]) := by
  refine ⟨?_, ?_, ?_, ?_⟩
  · simp [on_order_accepted, ha]
  · simp [on_order_rejected, hr]
  · by_cases h : t.trade_type = TradeType.SECONDARY_MARKET <;>
      simp [on_order_traded, on_secondary_market_traded, on_primary_market_traded, h, ht]
  · simp [on_order_canceled, hc]

/-- Concrete instance of claim C8: callbacks for engine id 999 on a registry
holding only engine id 1 (spec §8 scenario 6). -/
theorem unknown_id_callbacks_dropped_witness :
    mapFind stOne.order_map 999 = none ∧
    (on_order_accepted stOne { engine_order_id := 999, order_id := 0 } =
       (stOne, [Event.logWarn]) ∧
     on_order_rejected stOne { engine_order_id := 999, reason := "" } =
       (stOne, [Event.logWarn]) ∧
     on_order_traded stOne
       { engine_order_id := 999, order_id := 0, trade_type := TradeType.SECONDARY_MARKET,
         volume := 1, price := 100 } = (stOne, [Event.logWarn]) ∧
     on_order_canceled stOne { engine_order_id := 999, canceled_volume := 1 } =
       (stOne, [Event.logWarn])) :=
  ⟨rfl,
   (unknown_id_callbacks_dropped stOne
     { engine_order_id := 999, order_id := 0 }
     { engine_order_id := 999, reason := "" }
     { engine_order_id := 999, order_id := 0, trade_type := TradeType.SECONDARY_MARKET,
       volume := 1, price := 100 }
     { engine_order_id := 999, canceled_volume := 1 } rfl rfl rfl rfl)⟩

/-! ### Claim C5 -/

/-- Risk chain that rejects everything with code 5 (a specific nonzero risk
code), used to exercise the pre-check failure path. -/
def envRisk5 : Env := { envEx with risk_check := fun _ => 5 }

/-- Environment whose gateway declines every push. -/
def envGwDown : Env := { envEx with gateway_accepts := fun _ => false }

/-- Happy-path command with the risk bypass flag set. -/
def cmdNoCheck : TraderCommand :=
  { cmdEx with order_req := { orderReqEx with without_check := true } }

/-- Claim C5: for a new-order command whose contract resolves, a non-zero
risk pre-check verdict means send_order returns false, on_order_rejected
fires with that specific code, the gateway push is never made and the order
never enters the registry; and whenever the push is attempted (check passed
or bypassed) and the gateway declines it, send_order returns false,
on_order_rejected fires with ERR_SEND_FAILED and the order never enters the
registry. -/
theorem send_order_rejection_paths (env : Env) (st : EngineState) (cmd : TraderCommand)
    (ctr : Contract) (hc : env.contract_table cmd.order_req.ticker_index = some ctr) :
    ((cmd.order_req.without_check = false →
      env.risk_check (make_order ctr st.next_order_id cmd) ≠ NO_ERROR →
      (send_order env st cmd).1 = false ∧
      Event.riskOnOrderRejected st.next_order_id
          (env.risk_check (make_order ctr st.next_order_id cmd)) ∈ (send_order env st cmd).2.2 ∧
      (∀ k, Event.gatewaySendOrder k ∉ (send_order env st cmd).2.2) ∧
      (send_order env st cmd).2.1.order_map = st.order_map) ∧
     ((cmd.order_req.without_check = true ∨
       env.risk_check (make_order ctr st.next_order_id cmd) = NO_ERROR) →
      env.gateway_accepts (make_order ctr st.next_order_id cmd).req = false →
      (send_order env st cmd).1 = false ∧
      Event.riskOnOrderRejected st.next_order_id ERR_SEND_FAILED ∈ (send_order env st cmd).2.2 ∧
      (send_order env st cmd).2.1.order_map = st.order_map)) := by
  constructor
  · intro hwc hrc
    simp [send_order, hc, hwc, hrc]
  · intro hok hgw
    rcases hok with hok | hok
    · simp [send_order, hc, hok, hgw]
    · by_cases hwc : cmd.order_req.without_check = true <;>
        simp [send_order, hc, hwc, hok, hgw]

/-- Concrete instance of claim C5: the risk chain answering code 5 rejects
the happy-path command with that code and the gateway is never reached. -/
theorem send_order_rejection_paths_witness :
    envRisk5.contract_table cmdEx.order_req.ticker_index =
      some { index := 7, ticker := "IF2007" } ∧
    cmdEx.order_req.without_check = false ∧
    envRisk5.risk_check (make_order { index := 7, ticker := "IF2007" } 1 cmdEx) ≠ NO_ERROR ∧
    ((send_order envRisk5 stEmpty cmdEx).1 = false ∧
     Event.riskOnOrderRejected 1
         (envRisk5.risk_check (make_order { index := 7, ticker := "IF2007" } 1 cmdEx)) ∈
       (send_order envRisk5 stEmpty cmdEx).2.2 ∧
     (∀ k, Event.gatewaySendOrder k ∉ (send_order envRisk5 stEmpty cmdEx).2.2) ∧
     (send_order envRisk5 stEmpty cmdEx).2.1.order_map = stEmpty.order_map) :=
  ⟨by decide, rfl, by decide,
   (send_order_rejection_paths envRisk5 stEmpty cmdEx
     { index := 7, ticker := "IF2007" } (by decide)).1 rfl (by decide)⟩

/-! ### Claim C9 -/

/-- Happy-path command pointed at a ticker index missing from the table. -/
def cmdNoContract : TraderCommand :=
  { cmdEx with order_req := { orderReqEx with ticker_index := 9 } }

/-- Counterexample to claim C9: cmdNoContract has without_check unset, yet
check_order_req is never invoked, because send_order returns at the contract
lookup before the risk stage; so the claimed equivalence fails for this
new-order command. -/
theorem risk_check_not_reached_without_contract :
    cmdNoContract.order_req.without_check = false ∧
    (∀ k, Event.riskCheckOrderReq k ∉ (send_order envEx stEmpty cmdNoContract).2.2) := by
  refine ⟨rfl, ?_⟩
  have key : (send_order envEx stEmpty cmdNoContract).2.2 = [Event.logError] := rfl
  intro k
  rw [key]
  simp

/-- Claim C9 (amended): for every new-order command whose ticker_index
resolves in the contract table, check_order_req is invoked iff the command's
without_check flag is unset; when without_check is set the check is skipped,
the gateway push is attempted directly, and a false gateway return is
reported as ERR_SEND_FAILED with send_order returning false. -/
theorem risk_check_iff_not_without_check (env : Env) (st : EngineState) (cmd : TraderCommand)
    (ctr : Contract) (hc : env.contract_table cmd.order_req.ticker_index = some ctr) :
    ((Event.riskCheckOrderReq st.next_order_id ∈ (send_order env st cmd).2.2 ↔
        cmd.order_req.without_check = false) ∧
     (cmd.order_req.without_check = true →
      (∀ k, Event.riskCheckOrderReq k ∉ (send_order env st cmd).2.2) ∧
      Event.gatewaySendOrder st.next_order_id ∈ (send_order env st cmd).2.2 ∧
      (env.gateway_accepts (make_order ctr st.next_order_id cmd).req = false →
       (send_order env st cmd).1 = false ∧
       Event.riskOnOrderRejected st.next_order_id ERR_SEND_FAILED ∈
         (send_order env st cmd).2.2))) := by
  by_cases hwc : cmd.order_req.without_check = true
  · by_cases hgw : env.gateway_accepts (make_order ctr st.next_order_id cmd).req = false <;>
      simp [send_order, hc, hwc, hgw]
  · have hwc2 : cmd.order_req.without_check = false := by simpa using hwc
    by_cases hrc : env.risk_check (make_order ctr st.next_order_id cmd) = NO_ERROR
    · by_cases hgw : env.gateway_accepts (make_order ctr st.next_order_id cmd).req = false <;>
        simp [send_order, hc, hwc2, hrc, hgw]
    · simp [send_order, hc, hwc2, hrc]

/-- Concrete instance of claim C9 (amended): the bypass command against a
declining gateway (spec §8 scenario 5). -/
theorem risk_check_iff_not_without_check_witness :
    envGwDown.contract_table cmdNoCheck.order_req.ticker_index =
      some { index := 7, ticker := "IF2007" } ∧
    ((Event.riskCheckOrderReq 1 ∈ (send_order envGwDown stEmpty cmdNoCheck).2.2 ↔
        cmdNoCheck.order_req.without_check = false) ∧
     (cmdNoCheck.order_req.without_check = true →
      (∀ k, Event.riskCheckOrderReq k ∉ (send_order envGwDown stEmpty cmdNoCheck).2.2) ∧
      Event.gatewaySendOrder 1 ∈ (send_order envGwDown stEmpty cmdNoCheck).2.2 ∧
      (envGwDown.gateway_accepts
          (make_order { index := 7, ticker := "IF2007" } 1 cmdNoCheck).req = false →
       (send_order envGwDown stEmpty cmdNoCheck).1 = false ∧
       Event.riskOnOrderRejected 1 ERR_SEND_FAILED ∈
         (send_order envGwDown stEmpty cmdNoCheck).2.2))) :=
  ⟨by decide,
   risk_check_iff_not_without_check envGwDown stEmpty cmdNoCheck
     { index := 7, ticker := "IF2007" } (by decide)⟩

/-! ### Per-callback frame and effect lemmas (shared by the lifecycle claims) -/

theorem countEvent_eq_zero_iff (evs : List Event) (e : Event) :
    countEvent evs e = 0 ↔ e ∉ evs := by
  induction evs with
  | nil => simp [countEvent]
  | cons x rest ih =>
    by_cases h : x = e
    · simp [countEvent_cons, h]
    · simp [countEvent_cons, h, Ne.symm h, ih]

/-- The engine_order_id a callback addresses, when it addresses one. -/
def cbEngineOrderId : Callback → Option Nat
  | Callback.accepted rsp => some rsp.engine_order_id
  | Callback.rejected rsp => some rsp.engine_order_id
  | Callback.traded rsp => some rsp.engine_order_id
  | Callback.canceled rsp => some rsp.engine_order_id
  | Callback.cancelRejected => none

theorem secondary_update_frame (st : EngineState) (rsp : OrderTradedRsp) (order : Order)
    (acceptEvs : List Event) (k : Nat) (hne : k ≠ rsp.engine_order_id) :
    mapFind (secondary_update st rsp order acceptEvs).1.order_map k = mapFind st.order_map k ∧
    countEvent (secondary_update st rsp order acceptEvs).2 (Event.riskOnOrderAccepted k) =
      countEvent acceptEvs (Event.riskOnOrderAccepted k) ∧
    countEvent (secondary_update st rsp order acceptEvs).2 (Event.riskOnOrderCompleted k) =
      countEvent acceptEvs (Event.riskOnOrderCompleted k) := by
  unfold secondary_update
  by_cases ht : order.traded_volume + rsp.volume + order.canceled_volume = order.req.volume <;>
    simp [ht, mapFind_mapErase_ne _ _ _ hne, mapFind_mapUpdate_ne _ _ _ _ hne,
      countEvent_append, countEvent_cons, countEvent_nil, Ne.symm hne]

theorem primary_update_frame (st : EngineState) (rsp : OrderTradedRsp) (order : Order)
    (acceptEvs : List Event) (k : Nat) (hne : k ≠ rsp.engine_order_id) :
    mapFind (primary_update st rsp order acceptEvs).1.order_map k = mapFind st.order_map k ∧
    countEvent (primary_update st rsp order acceptEvs).2 (Event.riskOnOrderAccepted k) =
      countEvent acceptEvs (Event.riskOnOrderAccepted k) ∧
    countEvent (primary_update st rsp order acceptEvs).2 (Event.riskOnOrderCompleted k) =
      countEvent acceptEvs (Event.riskOnOrderCompleted k) := by
  cases htt : rsp.trade_type <;>
    simp [primary_update, htt, mapFind_mapErase_ne _ _ _ hne,
      mapFind_mapUpdate_ne _ _ _ _ hne, countEvent_append, countEvent_cons, countEvent_nil,
      Ne.symm hne]

theorem run_callback_frame (st : EngineState) (cb : Callback) (k : Nat)
    (h : cbEngineOrderId cb ≠ some k) :
    mapFind (run_callback st cb).1.order_map k = mapFind st.order_map k ∧
    countEvent (run_callback st cb).2 (Event.riskOnOrderAccepted k) = 0 ∧
    countEvent (run_callback st cb).2 (Event.riskOnOrderCompleted k) = 0 := by
  cases cb with
  | accepted rsp =>
    have hne : k ≠ rsp.engine_order_id := fun e => h (by simp [cbEngineOrderId, e])
    cases hf : mapFind st.order_map rsp.engine_order_id with
    | none => simp [run_callback, on_order_accepted, hf, countEvent_cons, countEvent_nil]
    | some o =>
      by_cases ha : o.accepted <;>
        simp [run_callback, on_order_accepted, hf, ha, countEvent_cons, countEvent_nil,
          mapFind_mapUpdate_ne _ _ _ _ hne, Ne.symm hne]
  | rejected rsp =>
    have hne : k ≠ rsp.engine_order_id := fun e => h (by simp [cbEngineOrderId, e])
    cases hf : mapFind st.order_map rsp.engine_order_id with
    | none => simp [run_callback, on_order_rejected, hf, countEvent_cons, countEvent_nil]
    | some o =>
      simp [run_callback, on_order_rejected, hf, countEvent_cons, countEvent_nil,
        mapFind_mapErase_ne _ _ _ hne]
  | traded rsp =>
    have hne : k ≠ rsp.engine_order_id := fun e => h (by simp [cbEngineOrderId, e])
    by_cases htt : rsp.trade_type = TradeType.SECONDARY_MARKET
    · cases hf : mapFind st.order_map rsp.engine_order_id with
      | none =>
        simp [run_callback, on_order_traded, htt, on_secondary_market_traded, hf,
          countEvent_cons, countEvent_nil]
      | some o =>
        by_cases ha : o.accepted
        · simpa [run_callback, on_order_traded, htt, on_secondary_market_traded, hf, ha,
            countEvent_cons, countEvent_nil, Ne.symm hne] using
            secondary_update_frame st rsp o [] k hne
        · simpa [run_callback, on_order_traded, htt, on_secondary_market_traded, hf, ha,
            countEvent_cons, countEvent_nil, Ne.symm hne] using
            secondary_update_frame st rsp { o with accepted := true }
              [Event.riskOnOrderAccepted rsp.engine_order_id] k hne
    · cases hf : mapFind st.order_map rsp.engine_order_id with
      | none =>
        simp [run_callback, on_order_traded, htt, on_primary_market_traded, hf,
          countEvent_cons, countEvent_nil]
      | some o =>
        by_cases ha : o.accepted
        · simpa [run_callback, on_order_traded, htt, on_primary_market_traded, hf, ha,
            countEvent_cons, countEvent_nil, Ne.symm hne] using
            primary_update_frame st rsp o [] k hne
        · simpa [run_callback, on_order_traded, htt, on_primary_market_traded, hf, ha,
            countEvent_cons, countEvent_nil, Ne.symm hne] using
            primary_update_frame st rsp { o with accepted := true }
              [Event.riskOnOrderAccepted rsp.engine_order_id] k hne
  | canceled rsp =>
    have hne : k ≠ rsp.engine_order_id := fun e => h (by simp [cbEngineOrderId, e])
    cases hf : mapFind st.order_map rsp.engine_order_id with
    | none => simp [run_callback, on_order_canceled, hf, countEvent_cons, countEvent_nil]
    | some o =>
      by_cases ht : o.traded_volume + rsp.canceled_volume = o.req.volume <;>
        simp [run_callback, on_order_canceled, hf, ht, countEvent_cons, countEvent_nil,
          mapFind_mapErase_ne _ _ _ hne, mapFind_mapUpdate_ne _ _ _ _ hne, Ne.symm hne]
  | cancelRejected =>
    simp [run_callback, on_order_cancel_rejected, countEvent_cons, countEvent_nil]

theorem secondary_update_after (st : EngineState) (rsp : OrderTradedRsp) (order o0 : Order)
    (acceptEvs : List Event) (h : mapFind st.order_map rsp.engine_order_id = some o0) :
    (mapFind (secondary_update st rsp order acceptEvs).1.order_map rsp.engine_order_id = none ∨
     ∃ o2, mapFind (secondary_update st rsp order acceptEvs).1.order_map rsp.engine_order_id
         = some o2 ∧ o2.accepted = order.accepted) ∧
    countEvent (secondary_update st rsp order acceptEvs).2
        (Event.riskOnOrderAccepted rsp.engine_order_id) =
      countEvent acceptEvs (Event.riskOnOrderAccepted rsp.engine_order_id) := by
  by_cases ht : order.traded_volume + rsp.volume + order.canceled_volume = order.req.volume
  · constructor
    · left
      simp [secondary_update, ht, mapFind_mapErase_self]
    · simp [secondary_update, ht, countEvent_append, countEvent_cons, countEvent_nil]
  · refine ⟨Or.inr ⟨{ order with order_id := rsp.order_id, traded_volume := order.traded_volume + rsp.volume }, ?_, rfl⟩, ?_⟩
    · have hu := mapFind_mapUpdate_self st.order_map rsp.engine_order_id
        { order with order_id := rsp.order_id, traded_volume := order.traded_volume + rsp.volume } o0 h
      simpa [secondary_update, ht] using hu
    · simp [secondary_update, ht, countEvent_append, countEvent_cons, countEvent_nil]

theorem primary_update_after (st : EngineState) (rsp : OrderTradedRsp) (order o0 : Order)
    (acceptEvs : List Event) (h : mapFind st.order_map rsp.engine_order_id = some o0) :
    (mapFind (primary_update st rsp order acceptEvs).1.order_map rsp.engine_order_id = none ∨
     ∃ o2, mapFind (primary_update st rsp order acceptEvs).1.order_map rsp.engine_order_id
         = some o2 ∧ o2.accepted = order.accepted) ∧
    countEvent (primary_update st rsp order acceptEvs).2
        (Event.riskOnOrderAccepted rsp.engine_order_id) =
      countEvent acceptEvs (Event.riskOnOrderAccepted rsp.engine_order_id) := by
  cases htt : rsp.trade_type
  case PRIMARY_MARKET =>
    constructor
    · left
      simp [primary_update, htt, mapFind_mapErase_self]
    · simp [primary_update, htt, countEvent_append, countEvent_cons, countEvent_nil]
  all_goals
    refine ⟨Or.inr ⟨{ order with order_id := rsp.order_id }, ?_, rfl⟩, ?_⟩
  case SECONDARY_MARKET.refine_1 | ACQUIRED_STOCK.refine_1 | RELEASED_STOCK.refine_1
    | CASH_SUBSTITUTION.refine_1 =>
    simpa [primary_update, htt] using
      mapFind_mapUpdate_self st.order_map rsp.engine_order_id
        { order with order_id := rsp.order_id } o0 h
  all_goals
    simp [primary_update, htt, countEvent_append, countEvent_cons, countEvent_nil]

theorem acceptLatched_of_update (st : EngineState) (k : Nat) (v o0 : Order)
    (h : mapFind st.order_map k = some o0) (ha : v.accepted = true) :
    (match mapFind (mapUpdate st.order_map k v) k with
     | none => true
     | some o => o.accepted) = true := by
  simp [mapFind_mapUpdate_self st.order_map k v o0 h, ha]

/-- The acceptance latch viewed at one engine order id: true when the order
is already accepted or absent (erased orders are never reinserted by
callbacks, so an absent id can never fire the accept hook again). -/
def acceptLatched (st : EngineState) (eoid : Nat) : Bool :=
  match mapFind st.order_map eoid with
  | none => true
  | some o => o.accepted

theorem latched_step (st : EngineState) (eoid : Nat) (cb : Callback)
    (h : acceptLatched st eoid = true) :
    acceptLatched (run_callback st cb).1 eoid = true ∧
    countEvent (run_callback st cb).2 (Event.riskOnOrderAccepted eoid) = 0 := by
  by_cases hid : cbEngineOrderId cb = some eoid
  case neg =>
    obtain ⟨hm, hca, _⟩ := run_callback_frame st cb eoid hid
    exact ⟨by simpa [acceptLatched, hm] using h, hca⟩
  case pos =>
    cases cb with
    | cancelRejected => simp [cbEngineOrderId] at hid
    | accepted rsp =>
      have he : rsp.engine_order_id = eoid := by simpa [cbEngineOrderId] using hid
      subst he
      cases hf : mapFind st.order_map rsp.engine_order_id with
      | none =>
        simp [run_callback, on_order_accepted, hf, acceptLatched,
          countEvent_cons, countEvent_nil]
      | some o =>
        have ha : o.accepted = true := by simpa [acceptLatched, hf] using h
        simp [run_callback, on_order_accepted, hf, ha, acceptLatched, countEvent_nil]
    | rejected rsp =>
      have he : rsp.engine_order_id = eoid := by simpa [cbEngineOrderId] using hid
      subst he
      cases hf : mapFind st.order_map rsp.engine_order_id with
      | none =>
        simp [run_callback, on_order_rejected, hf, acceptLatched, h,
          countEvent_cons, countEvent_nil]
      | some o =>
        simp [run_callback, on_order_rejected, hf, acceptLatched, mapFind_mapErase_self,
          countEvent_cons, countEvent_nil]
    | traded rsp =>
      have he : rsp.engine_order_id = eoid := by simpa [cbEngineOrderId] using hid
      subst he
      cases hf : mapFind st.order_map rsp.engine_order_id with
      | none =>
        by_cases htt : rsp.trade_type = TradeType.SECONDARY_MARKET <;>
          simp [run_callback, on_order_traded, htt, on_secondary_market_traded,
            on_primary_market_traded, hf, acceptLatched, h, countEvent_cons, countEvent_nil]
      | some o =>
        have ha : o.accepted = true := by simpa [acceptLatched, hf] using h
        by_cases htt : rsp.trade_type = TradeType.SECONDARY_MARKET
        · have hrc : run_callback st (Callback.traded rsp) = secondary_update st rsp o [] := by
            simp [run_callback, on_order_traded, htt, on_secondary_market_traded, hf, ha]
          obtain ⟨hd, hc⟩ := secondary_update_after st rsp o o [] hf
          rw [hrc]
          constructor
          · rcases hd with hd | ⟨o2, hd, hacc⟩
            · simp [acceptLatched, hd]
            · simp [acceptLatched, hd, hacc, ha]
          · simpa [countEvent_nil] using hc
        · have hrc : run_callback st (Callback.traded rsp) = primary_update st rsp o [] := by
            simp [run_callback, on_order_traded, htt, on_primary_market_traded, hf, ha]
          obtain ⟨hd, hc⟩ := primary_update_after st rsp o o [] hf
          rw [hrc]
          constructor
          · rcases hd with hd | ⟨o2, hd, hacc⟩
            · simp [acceptLatched, hd]
            · simp [acceptLatched, hd, hacc, ha]
          · simpa [countEvent_nil] using hc
    | canceled rsp =>
      have he : rsp.engine_order_id = eoid := by simpa [cbEngineOrderId] using hid
      subst he
      cases hf : mapFind st.order_map rsp.engine_order_id with
      | none =>
        simp [run_callback, on_order_canceled, hf, acceptLatched, h,
          countEvent_cons, countEvent_nil]
      | some o =>
        have ha : o.accepted = true := by simpa [acceptLatched, hf] using h
        by_cases ht : o.traded_volume + rsp.canceled_volume = o.req.volume
        · simp [run_callback, on_order_canceled, hf, ht, acceptLatched,
            mapFind_mapErase_self, countEvent_cons, countEvent_nil]
        · refine ⟨?_, ?_⟩
          · have hu := acceptLatched_of_update st rsp.engine_order_id
              { o with canceled_volume := rsp.canceled_volume } o hf (by simpa using ha)
            simpa [run_callback, on_order_canceled, hf, ht, acceptLatched] using hu
          · simp [run_callback, on_order_canceled, hf, ht, countEvent_cons, countEvent_nil]

theorem latched_run (eoid : Nat) : ∀ (st : EngineState) (cbs : List Callback),
    acceptLatched st eoid = true →
    acceptLatched (run_callbacks st cbs).1 eoid = true ∧
    countEvent (run_callbacks st cbs).2 (Event.riskOnOrderAccepted eoid) = 0 := by
  intro st cbs
  induction cbs generalizing st with
  | nil => intro h; simpa [run_callbacks, countEvent_nil] using h
  | cons cb rest ih =>
    intro h
    obtain ⟨h1, h2⟩ := latched_step st eoid cb h
    obtain ⟨h3, h4⟩ := ih _ h1
    simp [run_callbacks, countEvent_append, h2, h3, h4]

theorem step_accept_count (st : EngineState) (eoid : Nat) (cb : Callback) :
    countEvent (run_callback st cb).2 (Event.riskOnOrderAccepted eoid) ≤ 1 ∧
    (countEvent (run_callback st cb).2 (Event.riskOnOrderAccepted eoid) = 1 →
      acceptLatched (run_callback st cb).1 eoid = true) := by
  by_cases hid : cbEngineOrderId cb = some eoid
  case neg =>
    obtain ⟨_, hca, _⟩ := run_callback_frame st cb eoid hid
    simp [hca]
  case pos =>
    cases cb with
    | cancelRejected => simp [cbEngineOrderId] at hid
    | accepted rsp =>
      have he : rsp.engine_order_id = eoid := by simpa [cbEngineOrderId] using hid
      subst he
      cases hf : mapFind st.order_map rsp.engine_order_id with
      | none =>
        simp [run_callback, on_order_accepted, hf, countEvent_cons, countEvent_nil]
      | some o =>
        by_cases ha : o.accepted
        · simp [run_callback, on_order_accepted, hf, ha, countEvent_nil]
        · refine ⟨?_, fun _ => ?_⟩
          · simp [run_callback, on_order_accepted, hf, ha, countEvent_cons, countEvent_nil]
          · have hu := acceptLatched_of_update st rsp.engine_order_id
              { o with order_id := rsp.order_id, accepted := true } o hf (by simp)
            simpa [run_callback, on_order_accepted, hf, ha, acceptLatched] using hu
    | rejected rsp =>
      have he : rsp.engine_order_id = eoid := by simpa [cbEngineOrderId] using hid
      subst he
      cases hf : mapFind st.order_map rsp.engine_order_id with
      | none => simp [run_callback, on_order_rejected, hf, countEvent_cons, countEvent_nil]
      | some o =>
        simp [run_callback, on_order_rejected, hf, acceptLatched, mapFind_mapErase_self,
          countEvent_cons, countEvent_nil]
    | traded rsp =>
      have he : rsp.engine_order_id = eoid := by simpa [cbEngineOrderId] using hid
      subst he
      cases hf : mapFind st.order_map rsp.engine_order_id with
      | none =>
        by_cases htt : rsp.trade_type = TradeType.SECONDARY_MARKET <;>
          simp [run_callback, on_order_traded, htt, on_secondary_market_traded,
            on_primary_market_traded, hf, countEvent_cons, countEvent_nil]
      | some o =>
        by_cases ha : o.accepted
        · have hl : acceptLatched st rsp.engine_order_id = true := by
            simp [acceptLatched, hf, ha]
          obtain ⟨h1, h2⟩ := latched_step st rsp.engine_order_id (Callback.traded rsp) hl
          simp [h2, h1]
        · by_cases htt : rsp.trade_type = TradeType.SECONDARY_MARKET
          · have hrc : run_callback st (Callback.traded rsp) =
                secondary_update st rsp { o with accepted := true }
                  [Event.riskOnOrderAccepted rsp.engine_order_id] := by
              simp [run_callback, on_order_traded, htt, on_secondary_market_traded, hf, ha]
            obtain ⟨hd, hc⟩ := secondary_update_after st rsp { o with accepted := true } o
              [Event.riskOnOrderAccepted rsp.engine_order_id] hf
            rw [hrc]
            have hc1 : countEvent (secondary_update st rsp { o with accepted := true }
                [Event.riskOnOrderAccepted rsp.engine_order_id]).2
                (Event.riskOnOrderAccepted rsp.engine_order_id) = 1 := by
              simpa [countEvent_cons, countEvent_nil] using hc
            refine ⟨by simp [hc1], fun _ => ?_⟩
            rcases hd with hd | ⟨o2, hd, hacc⟩
            · simp [acceptLatched, hd]
            · simp only [acceptLatched, hd]
              simpa using hacc
          · have hrc : run_callback st (Callback.traded rsp) =
                primary_update st rsp { o with accepted := true }
                  [Event.riskOnOrderAccepted rsp.engine_order_id] := by
              simp [run_callback, on_order_traded, htt, on_primary_market_traded, hf, ha]
            obtain ⟨hd, hc⟩ := primary_update_after st rsp { o with accepted := true } o
              [Event.riskOnOrderAccepted rsp.engine_order_id] hf
            rw [hrc]
            have hc1 : countEvent (primary_update st rsp { o with accepted := true }
                [Event.riskOnOrderAccepted rsp.engine_order_id]).2
                (Event.riskOnOrderAccepted rsp.engine_order_id) = 1 := by
              simpa [countEvent_cons, countEvent_nil] using hc
            refine ⟨by simp [hc1], fun _ => ?_⟩
            rcases hd with hd | ⟨o2, hd, hacc⟩
            · simp [acceptLatched, hd]
            · simp only [acceptLatched, hd]
              simpa using hacc
    | canceled rsp =>
      have he : rsp.engine_order_id = eoid := by simpa [cbEngineOrderId] using hid
      subst he
      cases hf : mapFind st.order_map rsp.engine_order_id with
      | none => simp [run_callback, on_order_canceled, hf, countEvent_cons, countEvent_nil]
      | some o =>
        by_cases ht : o.traded_volume + rsp.canceled_volume = o.req.volume <;>
          simp [run_callback, on_order_canceled, hf, ht, countEvent_cons, countEvent_nil]

theorem run_accept_count_le_one (eoid : Nat) : ∀ (st : EngineState) (cbs : List Callback),
    countEvent (run_callbacks st cbs).2 (Event.riskOnOrderAccepted eoid) ≤ 1 := by
  intro st cbs
  induction cbs generalizing st with
  | nil => simp [run_callbacks, countEvent_nil]
  | cons cb rest ih =>
    obtain ⟨h1, h2⟩ := step_accept_count st eoid cb
    by_cases hc : countEvent (run_callback st cb).2 (Event.riskOnOrderAccepted eoid) = 1
    · obtain ⟨_, h4⟩ := latched_run eoid _ rest (h2 hc)
      simp [run_callbacks, countEvent_append, hc, h4]
    · have hc0 : countEvent (run_callback st cb).2 (Event.riskOnOrderAccepted eoid) = 0 := by
        omega
      simpa [run_callbacks, countEvent_append, hc0] using ih (run_callback st cb).1

/-! ### Claim C4 -/

/-- Claim C4: for a registered order, whichever of on_order_accepted or the
first trade callback arrives first latches accepted = true and fires
RiskManager::on_order_accepted exactly once; an on_order_accepted callback
for an already-accepted order returns with the state unchanged and no risk
hook; and over any sequence of callbacks the accept hook fires at most once
for this order, and never again once the order is latched (or erased). -/
theorem accept_latch_idempotent_once (st : EngineState) (eoid : Nat) (o : Order)
    (h : mapFind st.order_map eoid = some o) :
    (∀ rsp : OrderAcceptedRsp, rsp.engine_order_id = eoid → o.accepted = true →
      on_order_accepted st rsp = (st, [])) ∧
    (∀ rsp : OrderAcceptedRsp, rsp.engine_order_id = eoid → o.accepted = false →
      (∃ o2, mapFind (on_order_accepted st rsp).1.order_map eoid = some o2 ∧
        o2.accepted = true ∧ o2.order_id = rsp.order_id) ∧
      (on_order_accepted st rsp).2 = [Event.riskOnOrderAccepted eoid]) ∧
    (∀ rsp : OrderTradedRsp, rsp.engine_order_id = eoid → o.accepted = false →
      countEvent (on_order_traded st rsp).2 (Event.riskOnOrderAccepted eoid) = 1 ∧
      acceptLatched (on_order_traded st rsp).1 eoid = true) ∧
    (∀ cbs : List Callback,
      countEvent (run_callbacks st cbs).2 (Event.riskOnOrderAccepted eoid) ≤ 1) ∧
    (o.accepted = true → ∀ cbs : List Callback,
      countEvent (run_callbacks st cbs).2 (Event.riskOnOrderAccepted eoid) = 0) := by
  refine ⟨?_, ?_, ?_, ?_, ?_⟩
  · intro rsp hre ha
    subst hre
    simp [on_order_accepted, h, ha]
  · intro rsp hre ha
    subst hre
    refine ⟨⟨{ o with order_id := rsp.order_id, accepted := true }, ?_, rfl, rfl⟩, ?_⟩
    · simpa [on_order_accepted, h, ha] using
        mapFind_mapUpdate_self st.order_map rsp.engine_order_id
          { o with order_id := rsp.order_id, accepted := true } o h
    · simp [on_order_accepted, h, ha]
  · intro rsp hre ha
    subst hre
    by_cases htt : rsp.trade_type = TradeType.SECONDARY_MARKET
    · have hrc : on_order_traded st rsp =
          secondary_update st rsp { o with accepted := true }
            [Event.riskOnOrderAccepted rsp.engine_order_id] := by
        simp [on_order_traded, htt, on_secondary_market_traded, h, ha]
      obtain ⟨hd, hc⟩ := secondary_update_after st rsp { o with accepted := true } o
        [Event.riskOnOrderAccepted rsp.engine_order_id] h
      rw [hrc]
      refine ⟨by simpa [countEvent_cons, countEvent_nil] using hc, ?_⟩
      rcases hd with hd | ⟨o2, hd, hacc⟩
      · simp [acceptLatched, hd]
      · simp only [acceptLatched, hd]
        simpa using hacc
    · have hrc : on_order_traded st rsp =
          primary_update st rsp { o with accepted := true }
            [Event.riskOnOrderAccepted rsp.engine_order_id] := by
        simp [on_order_traded, htt, on_primary_market_traded, h, ha]
      obtain ⟨hd, hc⟩ := primary_update_after st rsp { o with accepted := true } o
        [Event.riskOnOrderAccepted rsp.engine_order_id] h
      rw [hrc]
      refine ⟨by simpa [countEvent_cons, countEvent_nil] using hc, ?_⟩
      rcases hd with hd | ⟨o2, hd, hacc⟩
      · simp [acceptLatched, hd]
      · simp only [acceptLatched, hd]
        simpa using hacc
  · intro cbs
    exact run_accept_count_le_one eoid st cbs
  · intro ha cbs
    have hl : acceptLatched st eoid = true := by simp [acceptLatched, h, ha]
    exact (latched_run eoid st cbs hl).2

/-- A registered order that has not been acknowledged by the broker yet. -/
def orderSub : Order := { orderEx with order_id := 0, accepted := false }

/-- Registry holding exactly orderSub under engine id 1. -/
def stSub : EngineState := { order_map := [(1, orderSub)], next_order_id := 2 }

/-- Concrete instance of claim C4 at a freshly submitted order. -/
theorem accept_latch_idempotent_once_witness :
    mapFind stSub.order_map 1 = some orderSub ∧
    ((∀ rsp : OrderAcceptedRsp, rsp.engine_order_id = 1 → orderSub.accepted = true →
       on_order_accepted stSub rsp = (stSub, [])) ∧
     (∀ rsp : OrderAcceptedRsp, rsp.engine_order_id = 1 → orderSub.accepted = false →
       (∃ o2, mapFind (on_order_accepted stSub rsp).1.order_map 1 = some o2 ∧
         o2.accepted = true ∧ o2.order_id = rsp.order_id) ∧
       (on_order_accepted stSub rsp).2 = [Event.riskOnOrderAccepted 1]) ∧
     (∀ rsp : OrderTradedRsp, rsp.engine_order_id = 1 → orderSub.accepted = false →
       countEvent (on_order_traded stSub rsp).2 (Event.riskOnOrderAccepted 1) = 1 ∧
       acceptLatched (on_order_traded stSub rsp).1 1 = true) ∧
     (∀ cbs : List Callback,
       countEvent (run_callbacks stSub cbs).2 (Event.riskOnOrderAccepted 1) ≤ 1) ∧
     (orderSub.accepted = true → ∀ cbs : List Callback,
       countEvent (run_callbacks stSub cbs).2 (Event.riskOnOrderAccepted 1) = 0)) :=
  ⟨rfl, accept_latch_idempotent_once stSub 1 orderSub rfl⟩

/-! ### Claim C6 -/

theorem secondary_update_spec (st : EngineState) (rsp : OrderTradedRsp) (order o0 : Order)
    (acceptEvs : List Event) (h : mapFind st.order_map rsp.engine_order_id = some o0)
    (hA : Event.riskOnOrderCompleted rsp.engine_order_id ∉ acceptEvs) :
    Event.riskOnOrderTraded rsp.engine_order_id rsp.volume ∈
      (secondary_update st rsp order acceptEvs).2 ∧
    (order.traded_volume + rsp.volume + order.canceled_volume = order.req.volume →
      mapFind (secondary_update st rsp order acceptEvs).1.order_map rsp.engine_order_id
        = none ∧
      Event.riskOnOrderCompleted rsp.engine_order_id ∈
        (secondary_update st rsp order acceptEvs).2) ∧
    (order.traded_volume + rsp.volume + order.canceled_volume ≠ order.req.volume →
      ∃ o2, mapFind (secondary_update st rsp order acceptEvs).1.order_map rsp.engine_order_id
          = some o2 ∧
        o2.traded_volume = order.traded_volume + rsp.volume ∧
        o2.canceled_volume = order.canceled_volume ∧
        o2.req = order.req ∧
        Event.riskOnOrderCompleted rsp.engine_order_id ∉
          (secondary_update st rsp order acceptEvs).2) := by
  by_cases ht : order.traded_volume + rsp.volume + order.canceled_volume = order.req.volume
  · refine ⟨?_, fun _ => ⟨?_, ?_⟩, fun hne => absurd ht hne⟩
    · simp [secondary_update, ht]
    · simp [secondary_update, ht, mapFind_mapErase_self]
    · simp [secondary_update, ht]
  · refine ⟨?_, fun heq => absurd heq ht, fun _ => ?_⟩
    · simp [secondary_update, ht]
    · refine ⟨{ order with order_id := rsp.order_id, traded_volume := order.traded_volume + rsp.volume }, ?_, rfl, rfl, rfl, ?_⟩
      · simpa [secondary_update, ht] using
          mapFind_mapUpdate_self st.order_map rsp.engine_order_id
            { order with order_id := rsp.order_id, traded_volume := order.traded_volume + rsp.volume } o0 h
      · simp [secondary_update, ht, hA]

theorem primary_update_spec (st : EngineState) (rsp : OrderTradedRsp) (order o0 : Order)
    (acceptEvs : List Event) (h : mapFind st.order_map rsp.engine_order_id = some o0) :
    ((rsp.trade_type = TradeType.ACQUIRED_STOCK ∨ rsp.trade_type = TradeType.RELEASED_STOCK ∨
      rsp.trade_type = TradeType.CASH_SUBSTITUTION ∨
      rsp.trade_type = TradeType.PRIMARY_MARKET) →
      Event.riskOnOrderTraded rsp.engine_order_id rsp.volume ∈
        (primary_update st rsp order acceptEvs).2) ∧
    ((rsp.trade_type = TradeType.ACQUIRED_STOCK ∨ rsp.trade_type = TradeType.RELEASED_STOCK ∨
      rsp.trade_type = TradeType.CASH_SUBSTITUTION) →
      (mapFind (primary_update st rsp order acceptEvs).1.order_map
          rsp.engine_order_id).isSome = true) ∧
    (rsp.trade_type = TradeType.PRIMARY_MARKET →
      mapFind (primary_update st rsp order acceptEvs).1.order_map rsp.engine_order_id
        = none) := by
  have hu := mapFind_mapUpdate_self st.order_map rsp.engine_order_id
    { order with order_id := rsp.order_id } o0 h
  refine ⟨?_, ?_, ?_⟩
  · intro hor
    rcases hor with h1 | h1 | h1 | h1 <;> simp [primary_update, h1]
  · intro hor
    rcases hor with h1 | h1 | h1 <;> simp [primary_update, h1, hu]
  · intro h1
    simp [primary_update, h1, mapFind_mapErase_self]

/-- Claim C6: for a trade callback targeting a registered order, a
SECONDARY_MARKET trade fires on_order_traded, accumulates the volume into
traded_volume and erases the order with on_order_completed exactly when the
terminal condition is reached; ACQUIRED_STOCK, RELEASED_STOCK,
CASH_SUBSTITUTION and PRIMARY_MARKET trades are all forwarded to
RiskManager::on_order_traded, and among these only PRIMARY_MARKET is
terminal (the order is erased from the registry, the others keep it). -/
theorem trade_classification (st : EngineState) (rsp : OrderTradedRsp) (o : Order)
    (h : mapFind st.order_map rsp.engine_order_id = some o) :
    (rsp.trade_type = TradeType.SECONDARY_MARKET →
      Event.riskOnOrderTraded rsp.engine_order_id rsp.volume ∈ (on_order_traded st rsp).2 ∧
      (o.traded_volume + rsp.volume + o.canceled_volume = o.req.volume →
        mapFind (on_order_traded st rsp).1.order_map rsp.engine_order_id = none ∧
        Event.riskOnOrderCompleted rsp.engine_order_id ∈ (on_order_traded st rsp).2) ∧
      (o.traded_volume + rsp.volume + o.canceled_volume ≠ o.req.volume →
        ∃ o2, mapFind (on_order_traded st rsp).1.order_map rsp.engine_order_id = some o2 ∧
          o2.traded_volume = o.traded_volume + rsp.volume ∧
          o2.canceled_volume = o.canceled_volume ∧
          o2.req = o.req ∧
          Event.riskOnOrderCompleted rsp.engine_order_id ∉ (on_order_traded st rsp).2)) ∧
    ((rsp.trade_type = TradeType.ACQUIRED_STOCK ∨ rsp.trade_type = TradeType.RELEASED_STOCK ∨
      rsp.trade_type = TradeType.CASH_SUBSTITUTION ∨
      rsp.trade_type = TradeType.PRIMARY_MARKET) →
      Event.riskOnOrderTraded rsp.engine_order_id rsp.volume ∈ (on_order_traded st rsp).2) ∧
    ((rsp.trade_type = TradeType.ACQUIRED_STOCK ∨ rsp.trade_type = TradeType.RELEASED_STOCK ∨
      rsp.trade_type = TradeType.CASH_SUBSTITUTION) →
      (mapFind (on_order_traded st rsp).1.order_map rsp.engine_order_id).isSome = true) ∧
    (rsp.trade_type = TradeType.PRIMARY_MARKET →
      mapFind (on_order_traded st rsp).1.order_map rsp.engine_order_id = none) := by
  refine ⟨?_, ?_, ?_, ?_⟩
  · intro htt
    by_cases ha : o.accepted
    · have hrc : on_order_traded st rsp = secondary_update st rsp o [] := by
        simp [on_order_traded, htt, on_secondary_market_traded, h, ha]
      rw [hrc]
      exact secondary_update_spec st rsp o o [] h (by simp)
    · have hrc : on_order_traded st rsp = secondary_update st rsp { o with accepted := true }
          [Event.riskOnOrderAccepted rsp.engine_order_id] := by
        simp [on_order_traded, htt, on_secondary_market_traded, h, ha]
      rw [hrc]
      simpa using secondary_update_spec st rsp { o with accepted := true } o
        [Event.riskOnOrderAccepted rsp.engine_order_id] h (by simp)
  · intro hor
    have htt : ¬ rsp.trade_type = TradeType.SECONDARY_MARKET := by
      rcases hor with h1 | h1 | h1 | h1 <;> simp [h1]
    by_cases ha : o.accepted
    · have hrc : on_order_traded st rsp = primary_update st rsp o [] := by
        simp [on_order_traded, htt, on_primary_market_traded, h, ha]
      rw [hrc]
      exact (primary_update_spec st rsp o o [] h).1 hor
    · have hrc : on_order_traded st rsp = primary_update st rsp { o with accepted := true }
          [Event.riskOnOrderAccepted rsp.engine_order_id] := by
        simp [on_order_traded, htt, on_primary_market_traded, h, ha]
      rw [hrc]
      exact (primary_update_spec st rsp { o with accepted := true } o
        [Event.riskOnOrderAccepted rsp.engine_order_id] h).1 hor
  · intro hor
    have htt : ¬ rsp.trade_type = TradeType.SECONDARY_MARKET := by
      rcases hor with h1 | h1 | h1 <;> simp [h1]
    by_cases ha : o.accepted
    · have hrc : on_order_traded st rsp = primary_update st rsp o [] := by
        simp [on_order_traded, htt, on_primary_market_traded, h, ha]
      rw [hrc]
      exact (primary_update_spec st rsp o o [] h).2.1 hor
    · have hrc : on_order_traded st rsp = primary_update st rsp { o with accepted := true }
          [Event.riskOnOrderAccepted rsp.engine_order_id] := by
        simp [on_order_traded, htt, on_primary_market_traded, h, ha]
      rw [hrc]
      exact (primary_update_spec st rsp { o with accepted := true } o
        [Event.riskOnOrderAccepted rsp.engine_order_id] h).2.1 hor
  · intro htt1
    have htt : ¬ rsp.trade_type = TradeType.SECONDARY_MARKET := by simp [htt1]
    by_cases ha : o.accepted
    · have hrc : on_order_traded st rsp = primary_update st rsp o [] := by
        simp [on_order_traded, htt, on_primary_market_traded, h, ha]
      rw [hrc]
      exact (primary_update_spec st rsp o o [] h).2.2 htt1
    · have hrc : on_order_traded st rsp = primary_update st rsp { o with accepted := true }
          [Event.riskOnOrderAccepted rsp.engine_order_id] := by
        simp [on_order_traded, htt, on_primary_market_traded, h, ha]
      rw [hrc]
      exact (primary_update_spec st rsp { o with accepted := true } o
        [Event.riskOnOrderAccepted rsp.engine_order_id] h).2.2 htt1

/-- A partial secondary-market fill of 4 lots against engine order 1. -/
def tradedRspEx : OrderTradedRsp :=
  { engine_order_id := 1, order_id := 777, trade_type := TradeType.SECONDARY_MARKET,
    volume := 4, price := 100 }

/-- Concrete instance of claim C6 at a registered order and a partial
secondary-market fill. -/
theorem trade_classification_witness :
    mapFind stOne.order_map 1 = some orderEx ∧
    ((tradedRspEx.trade_type = TradeType.SECONDARY_MARKET →
      Event.riskOnOrderTraded 1 4 ∈ (on_order_traded stOne tradedRspEx).2 ∧
      (orderEx.traded_volume + 4 + orderEx.canceled_volume = orderEx.req.volume →
        mapFind (on_order_traded stOne tradedRspEx).1.order_map 1 = none ∧
        Event.riskOnOrderCompleted 1 ∈ (on_order_traded stOne tradedRspEx).2) ∧
      (orderEx.traded_volume + 4 + orderEx.canceled_volume ≠ orderEx.req.volume →
        ∃ o2, mapFind (on_order_traded stOne tradedRspEx).1.order_map 1 = some o2 ∧
          o2.traded_volume = orderEx.traded_volume + 4 ∧
          o2.canceled_volume = orderEx.canceled_volume ∧
          o2.req = orderEx.req ∧
          Event.riskOnOrderCompleted 1 ∉ (on_order_traded stOne tradedRspEx).2)) ∧
     ((tradedRspEx.trade_type = TradeType.ACQUIRED_STOCK ∨
       tradedRspEx.trade_type = TradeType.RELEASED_STOCK ∨
       tradedRspEx.trade_type = TradeType.CASH_SUBSTITUTION ∨
       tradedRspEx.trade_type = TradeType.PRIMARY_MARKET) →
      Event.riskOnOrderTraded 1 4 ∈ (on_order_traded stOne tradedRspEx).2) ∧
     ((tradedRspEx.trade_type = TradeType.ACQUIRED_STOCK ∨
       tradedRspEx.trade_type = TradeType.RELEASED_STOCK ∨
       tradedRspEx.trade_type = TradeType.CASH_SUBSTITUTION) →
      (mapFind (on_order_traded stOne tradedRspEx).1.order_map 1).isSome = true) ∧
     (tradedRspEx.trade_type = TradeType.PRIMARY_MARKET →
      mapFind (on_order_traded stOne tradedRspEx).1.order_map 1 = none)) :=
  ⟨rfl, trade_classification stOne tradedRspEx orderEx rfl⟩

/-! ### Claim C1 -/

/-- True of the callbacks the terminal condition concerns for engine order
eoid: a secondary-market trade or a cancel addressed to it. -/
def fillsOrCancels (eoid : Nat) : Callback → Bool
  | Callback.traded rsp =>
      rsp.engine_order_id == eoid && rsp.trade_type == TradeType.SECONDARY_MARKET
  | Callback.canceled rsp => rsp.engine_order_id == eoid
  | _ => false

/-- The volume a fill or cancel callback carries. -/
def cbVolume : Callback → Int
  | Callback.traded rsp => rsp.volume
  | Callback.canceled rsp => rsp.canceled_volume
  | _ => 0

/-- Summed volumes of a callback sequence. -/
def sumVolumes : List Callback → Int
  | [] => 0
  | cb :: rest => cbVolume cb + sumVolumes rest

/-- Number of cancel callbacks in a sequence. -/
def cancelCount : List Callback → Nat
  | [] => 0
  | Callback.canceled _ :: rest => cancelCount rest + 1
  | _ :: rest => cancelCount rest

theorem absent_run (eoid : Nat) : ∀ (st : EngineState) (cbs : List Callback),
    mapFind st.order_map eoid = none →
    (∀ cb ∈ cbs, fillsOrCancels eoid cb = true) →
    (run_callbacks st cbs).1 = st ∧
    countEvent (run_callbacks st cbs).2 (Event.riskOnOrderCompleted eoid) = 0 := by
  intro st cbs
  induction cbs generalizing st with
  | nil => intro _ _; simp [run_callbacks, countEvent_nil]
  | cons cb rest ih =>
    intro hf hall
    have hcb := hall cb (List.mem_cons_self _ _)
    have hstep : run_callback st cb = (st, [Event.logWarn]) := by
      cases cb with
      | traded rsp =>
        obtain ⟨he, htt⟩ : rsp.engine_order_id = eoid ∧
            rsp.trade_type = TradeType.SECONDARY_MARKET := by
          simpa [fillsOrCancels] using hcb
        subst he
        simp [run_callback, on_order_traded, htt, on_secondary_market_traded, hf]
      | canceled rsp =>
        have he : rsp.engine_order_id = eoid := by simpa [fillsOrCancels] using hcb
        subst he
        simp [run_callback, on_order_canceled, hf]
      | accepted rsp => simp [fillsOrCancels] at hcb
      | rejected rsp => simp [fillsOrCancels] at hcb
      | cancelRejected => simp [fillsOrCancels] at hcb
    obtain ⟨h1, h2⟩ := ih st hf (fun c hc => hall c (List.mem_cons_of_mem _ hc))
    simp [run_callbacks, hstep, countEvent_append, countEvent_cons, countEvent_nil, h1, h2]

theorem on_order_canceled_spec (st : EngineState) (rsp : OrderCanceledRsp) (o : Order)
    (h : mapFind st.order_map rsp.engine_order_id = some o) :
    (o.traded_volume + rsp.canceled_volume = o.req.volume →
      mapFind (on_order_canceled st rsp).1.order_map rsp.engine_order_id = none ∧
      countEvent (on_order_canceled st rsp).2
        (Event.riskOnOrderCompleted rsp.engine_order_id) = 1) ∧
    (o.traded_volume + rsp.canceled_volume ≠ o.req.volume →
      ∃ o2, mapFind (on_order_canceled st rsp).1.order_map rsp.engine_order_id = some o2 ∧
        o2.traded_volume = o.traded_volume ∧
        o2.canceled_volume = rsp.canceled_volume ∧
        o2.req = o.req ∧
        countEvent (on_order_canceled st rsp).2
          (Event.riskOnOrderCompleted rsp.engine_order_id) = 0) := by
  by_cases ht : o.traded_volume + rsp.canceled_volume = o.req.volume
  · refine ⟨fun _ => ⟨?_, ?_⟩, fun hne => absurd ht hne⟩
    · simp [on_order_canceled, h, ht, mapFind_mapErase_self]
    · simp [on_order_canceled, h, ht, countEvent_cons, countEvent_nil]
  · refine ⟨fun heq => absurd heq ht, fun _ => ?_⟩
    refine ⟨{ o with canceled_volume := rsp.canceled_volume }, ?_, rfl, rfl, rfl, ?_⟩
    · simpa [on_order_canceled, h, ht] using
        mapFind_mapUpdate_self st.order_map rsp.engine_order_id
          { o with canceled_volume := rsp.canceled_volume } o h
    · simp [on_order_canceled, h, ht, countEvent_cons, countEvent_nil]

theorem on_secondary_traded_spec (st : EngineState) (rsp : OrderTradedRsp) (o : Order)
    (htt : rsp.trade_type = TradeType.SECONDARY_MARKET)
    (h : mapFind st.order_map rsp.engine_order_id = some o) :
    (o.traded_volume + rsp.volume + o.canceled_volume = o.req.volume →
      mapFind (on_order_traded st rsp).1.order_map rsp.engine_order_id = none ∧
      countEvent (on_order_traded st rsp).2
        (Event.riskOnOrderCompleted rsp.engine_order_id) = 1) ∧
    (o.traded_volume + rsp.volume + o.canceled_volume ≠ o.req.volume →
      ∃ o2, mapFind (on_order_traded st rsp).1.order_map rsp.engine_order_id = some o2 ∧
        o2.traded_volume = o.traded_volume + rsp.volume ∧
        o2.canceled_volume = o.canceled_volume ∧
        o2.req = o.req ∧
        countEvent (on_order_traded st rsp).2
          (Event.riskOnOrderCompleted rsp.engine_order_id) = 0) := by
  by_cases ha : o.accepted
  · have hrc : on_order_traded st rsp = secondary_update st rsp o [] := by
      simp [on_order_traded, htt, on_secondary_market_traded, h, ha]
    rw [hrc]
    by_cases ht : o.traded_volume + rsp.volume + o.canceled_volume = o.req.volume
    · refine ⟨fun _ => ⟨?_, ?_⟩, fun hne => absurd ht hne⟩
      · simp [secondary_update, ht, mapFind_mapErase_self]
      · simp [secondary_update, ht, countEvent_append, countEvent_cons, countEvent_nil]
    · refine ⟨fun heq => absurd heq ht, fun _ => ?_⟩
      refine ⟨{ o with order_id := rsp.order_id, traded_volume := o.traded_volume + rsp.volume }, ?_, rfl, rfl, rfl, ?_⟩
      · simpa [secondary_update, ht] using
          mapFind_mapUpdate_self st.order_map rsp.engine_order_id
            { o with order_id := rsp.order_id, traded_volume := o.traded_volume + rsp.volume } o h
      · simp [secondary_update, ht, countEvent_append, countEvent_cons, countEvent_nil]
  · have hrc : on_order_traded st rsp = secondary_update st rsp { o with accepted := true }
        [Event.riskOnOrderAccepted rsp.engine_order_id] := by
      simp [on_order_traded, htt, on_secondary_market_traded, h, ha]
    rw [hrc]
    by_cases ht : o.traded_volume + rsp.volume + o.canceled_volume = o.req.volume
    · refine ⟨fun _ => ⟨?_, ?_⟩, fun hne => absurd ht hne⟩
      · simp [secondary_update, ht, mapFind_mapErase_self]
      · simp [secondary_update, ht, countEvent_append, countEvent_cons, countEvent_nil]
    · refine ⟨fun heq => absurd heq ht, fun _ => ?_⟩
      refine ⟨{ o with accepted := true, order_id := rsp.order_id, traded_volume := o.traded_volume + rsp.volume }, ?_, rfl, rfl, rfl, ?_⟩
      · simpa [secondary_update, ht] using
          mapFind_mapUpdate_self st.order_map rsp.engine_order_id
            { o with accepted := true, order_id := rsp.order_id, traded_volume := o.traded_volume + rsp.volume } o h
      · simp [secondary_update, ht, countEvent_append, countEvent_cons, countEvent_nil]

theorem single_cancel_run (eoid : Nat) : ∀ (cbs : List Callback) (st : EngineState) (o : Order),
    mapFind st.order_map eoid = some o →
    (∀ cb ∈ cbs, fillsOrCancels eoid cb = true) →
    sumVolumes cbs = o.req.volume - o.traded_volume - o.canceled_volume →
    o.traded_volume + o.canceled_volume ≠ o.req.volume →
    (cancelCount cbs = 0 ∨ o.canceled_volume = 0) →
    cancelCount cbs ≤ 1 →
    mapFind (run_callbacks st cbs).1.order_map eoid = none ∧
    countEvent (run_callbacks st cbs).2 (Event.riskOnOrderCompleted eoid) = 1 := by
  intro cbs
  induction cbs with
  | nil =>
    intro st o h _ hsum hne _ _
    exfalso
    simp only [sumVolumes] at hsum
    omega
  | cons cb rest ih =>
    intro st o h hall hsum hne hcc hle
    have hcb := hall cb (List.mem_cons_self _ _)
    have hrest : ∀ c ∈ rest, fillsOrCancels eoid c = true :=
      fun c hc => hall c (List.mem_cons_of_mem _ hc)
    cases cb with
    | accepted rsp => simp [fillsOrCancels] at hcb
    | rejected rsp => simp [fillsOrCancels] at hcb
    | cancelRejected => simp [fillsOrCancels] at hcb
    | traded rsp =>
      obtain ⟨he, htt⟩ : rsp.engine_order_id = eoid ∧
          rsp.trade_type = TradeType.SECONDARY_MARKET := by
        simpa [fillsOrCancels] using hcb
      subst he
      have hsum1 : rsp.volume + sumVolumes rest =
          o.req.volume - o.traded_volume - o.canceled_volume := by
        simpa [sumVolumes, cbVolume] using hsum
      obtain ⟨hterm, hnterm⟩ := on_secondary_traded_spec st rsp o htt h
      by_cases ht : o.traded_volume + rsp.volume + o.canceled_volume = o.req.volume
      · obtain ⟨hm, hc⟩ := hterm ht
        obtain ⟨ha1, ha2⟩ := absent_run rsp.engine_order_id (on_order_traded st rsp).1 rest
          hm hrest
        constructor
        · simp [run_callbacks, run_callback, ha1, hm]
        · simp [run_callbacks, run_callback, countEvent_append, hc, ha2]
      · obtain ⟨o2, hm, ht2, hc2, hr2, hc0⟩ := hnterm ht
        have hne2 : o2.traded_volume + o2.canceled_volume ≠ o2.req.volume := by
          rw [ht2, hc2, hr2]; exact ht
        have hsum2 : sumVolumes rest =
            o2.req.volume - o2.traded_volume - o2.canceled_volume := by
          rw [ht2, hc2, hr2]; omega
        have hcc2 : cancelCount rest = 0 ∨ o2.canceled_volume = 0 := by
          rcases hcc with hcc | hcc
          · left; simpa [cancelCount] using hcc
          · right; rw [hc2]; exact hcc
        have hle2 : cancelCount rest ≤ 1 := by simpa [cancelCount] using hle
        obtain ⟨hi1, hi2⟩ := ih (on_order_traded st rsp).1 o2 hm hrest hsum2 hne2 hcc2 hle2
        constructor
        · simpa [run_callbacks, run_callback] using hi1
        · simp [run_callbacks, run_callback, countEvent_append, hc0, hi2]
    | canceled rsp =>
      have he : rsp.engine_order_id = eoid := by simpa [fillsOrCancels] using hcb
      subst he
      have hc0vol : o.canceled_volume = 0 := by
        rcases hcc with hcc | hcc
        · exfalso; simp [cancelCount] at hcc
        · exact hcc
      have hrest0 : cancelCount rest = 0 := by
        have : cancelCount rest + 1 ≤ 1 := by simpa [cancelCount] using hle
        omega
      have hsum1 : rsp.canceled_volume + sumVolumes rest =
          o.req.volume - o.traded_volume - o.canceled_volume := by
        simpa [sumVolumes, cbVolume] using hsum
      obtain ⟨hterm, hnterm⟩ := on_order_canceled_spec st rsp o h
      by_cases ht : o.traded_volume + rsp.canceled_volume = o.req.volume
      · obtain ⟨hm, hc⟩ := hterm ht
        obtain ⟨ha1, ha2⟩ := absent_run rsp.engine_order_id (on_order_canceled st rsp).1 rest
          hm hrest
        constructor
        · simp [run_callbacks, run_callback, ha1, hm]
        · simp [run_callbacks, run_callback, countEvent_append, hc, ha2]
      · obtain ⟨o2, hm, ht2, hc2, hr2, hcz⟩ := hnterm ht
        have hne2 : o2.traded_volume + o2.canceled_volume ≠ o2.req.volume := by
          rw [ht2, hc2, hr2]; exact ht
        have hsum2 : sumVolumes rest =
            o2.req.volume - o2.traded_volume - o2.canceled_volume := by
          rw [ht2, hc2, hr2]; omega
        obtain ⟨hi1, hi2⟩ := ih (on_order_canceled st rsp).1 o2 hm hrest hsum2 hne2
          (Or.inl hrest0) (by omega)
        constructor
        · simpa [run_callbacks, run_callback] using hi1
        · simp [run_callbacks, run_callback, countEvent_append, hcz, hi2]

/-- Counterexample to claim C1: two cancel callbacks of 3 and 7 lots on a
10-lot order are an interleaved traded/canceled sequence whose volumes sum
to req.volume, yet because on_order_canceled assigns canceled_volume rather
than accumulating it, the order is still in the registry afterwards and
on_order_completed never fires. -/
theorem double_cancel_leaves_order_live :
    orderEx.req.volume = 10 ∧
    sumVolumes [Callback.canceled { engine_order_id := 1, canceled_volume := 3 },
                Callback.canceled { engine_order_id := 1, canceled_volume := 7 }] = 10 ∧
    (mapFind (run_callbacks stOne
        [Callback.canceled { engine_order_id := 1, canceled_volume := 3 },
         Callback.canceled { engine_order_id := 1, canceled_volume := 7 }]).1.order_map
      1).isSome = true ∧
    countEvent (run_callbacks stOne
        [Callback.canceled { engine_order_id := 1, canceled_volume := 3 },
         Callback.canceled { engine_order_id := 1, canceled_volume := 7 }]).2
      (Event.riskOnOrderCompleted 1) = 0 := by
  refine ⟨rfl, rfl, rfl, rfl⟩

/-- Claim C1 (amended): for an order in the registry, after any
secondary-market on_order_traded callback and after any on_order_canceled
callback, if traded_volume + canceled_volume equals req.volume then
RiskManager::on_order_completed fires exactly once in that callback and the
order is erased in the same critical section; and for every sequence of
interleaved secondary-market traded and canceled callbacks containing at
most one canceled callback (canceled_volume is assigned, not accumulated)
whose volumes sum to the outstanding req.volume, afterwards the order is
absent from the registry and on_order_completed fired exactly once. -/
theorem terminal_completion (st : EngineState) (eoid : Nat) (o : Order)
    (h : mapFind st.order_map eoid = some o) :
    (∀ rsp : OrderTradedRsp, rsp.engine_order_id = eoid →
      rsp.trade_type = TradeType.SECONDARY_MARKET →
      o.traded_volume + rsp.volume + o.canceled_volume = o.req.volume →
      mapFind (on_order_traded st rsp).1.order_map eoid = none ∧
      countEvent (on_order_traded st rsp).2 (Event.riskOnOrderCompleted eoid) = 1) ∧
    (∀ rsp : OrderCanceledRsp, rsp.engine_order_id = eoid →
      o.traded_volume + rsp.canceled_volume = o.req.volume →
      mapFind (on_order_canceled st rsp).1.order_map eoid = none ∧
      countEvent (on_order_canceled st rsp).2 (Event.riskOnOrderCompleted eoid) = 1) ∧
    (∀ cbs : List Callback,
      (∀ cb ∈ cbs, fillsOrCancels eoid cb = true) →
      sumVolumes cbs = o.req.volume - o.traded_volume - o.canceled_volume →
      o.traded_volume + o.canceled_volume ≠ o.req.volume →
      (cancelCount cbs = 0 ∨ o.canceled_volume = 0) →
      cancelCount cbs ≤ 1 →
      mapFind (run_callbacks st cbs).1.order_map eoid = none ∧
      countEvent (run_callbacks st cbs).2 (Event.riskOnOrderCompleted eoid) = 1) := by
  refine ⟨?_, ?_, ?_⟩
  · intro rsp hre htt ht
    subst hre
    exact (on_secondary_traded_spec st rsp o htt h).1 ht
  · intro rsp hre ht
    subst hre
    exact (on_order_canceled_spec st rsp o h).1 ht
  · intro cbs hall hsum hne hcc hle
    exact single_cancel_run eoid cbs st o h hall hsum hne hcc hle

/-- The spec §8 scenario-3 callback sequence: a partial secondary fill of 3
lots followed by a cancel of the remaining 7. -/
def cbsPartialThenCancel : List Callback :=
  [Callback.traded { engine_order_id := 1, order_id := 555, trade_type := TradeType.SECONDARY_MARKET, volume := 3, price := 100 },
   Callback.canceled { engine_order_id := 1, canceled_volume := 7 }]

/-- Concrete instance of claim C1 (amended): partial fill then cancel drains
the order; the registry no longer holds it and completion fired once. -/
theorem terminal_completion_witness :
    mapFind stOne.order_map 1 = some orderEx ∧
    (∀ cb ∈ cbsPartialThenCancel, fillsOrCancels 1 cb = true) ∧
    sumVolumes cbsPartialThenCancel =
      orderEx.req.volume - orderEx.traded_volume - orderEx.canceled_volume ∧
    (mapFind (run_callbacks stOne cbsPartialThenCancel).1.order_map 1 = none ∧
     countEvent (run_callbacks stOne cbsPartialThenCancel).2
       (Event.riskOnOrderCompleted 1) = 1) :=
  ⟨rfl, by decide, by decide,
   (terminal_completion stOne 1 orderEx rfl).2.2 cbsPartialThenCancel (by decide) (by decide)
     (by decide) (Or.inr rfl) (by decide)⟩

/-! ### Claim C2 -/

/-- Per-order registry invariant the code actually maintains: volumes are
nonnegative and within the requested volume, and status still holds its
initial value SUBMITTING (trading_engine.cpp never assigns status after the
construction in send_order). -/
def orderInv (o : Order) : Bool :=
  decide (0 ≤ o.traded_volume) && decide (0 ≤ o.canceled_volume) &&
  decide (o.traded_volume + o.canceled_volume ≤ o.req.volume) &&
  decide (o.status = OrderStatus.SUBMITTING)

/-- The registry-wide invariant. -/
def engineInv (st : EngineState) : Bool :=
  st.order_map.all (fun kv => orderInv kv.2)

/-- Well-formedness of one external input relative to the current state: a
new order carries a nonnegative volume, a secondary fill does not exceed the
outstanding volume, a cancel does not exceed the unfilled volume.  These are
conditions on the broker gateway and the strategies; the engine code does
not enforce them. -/
def validAction (st : EngineState) : Action → Bool
  | Action.cmd c =>
    if c.type = CMD_NEW_ORDER then decide (0 ≤ c.order_req.volume) else true
  | Action.callback (Callback.traded rsp) =>
    if rsp.trade_type = TradeType.SECONDARY_MARKET then
      match mapFind st.order_map rsp.engine_order_id with
      | none => true
      | some o => decide (0 ≤ rsp.volume) &&
          decide (o.traded_volume + o.canceled_volume + rsp.volume ≤ o.req.volume)
    else true
  | Action.callback (Callback.canceled rsp) =>
    match mapFind st.order_map rsp.engine_order_id with
    | none => true
    | some o => decide (0 ≤ rsp.canceled_volume) &&
        decide (o.traded_volume + rsp.canceled_volume ≤ o.req.volume)
  | _ => true

/-- All inputs of a run well-formed along the trajectory. -/
def validRun (env : Env) : EngineState → List Action → Bool
  | _, [] => true
  | st, a :: as => validAction st a && validRun env (engine_step env st a).1 as

theorem mapFind_mem (m : OrderMap) (k : Nat) (o : Order) (h : mapFind m k = some o) :
    (k, o) ∈ m := by
  induction m with
  | nil => simp [mapFind] at h
  | cons kv rest ih =>
    obtain ⟨k0, v0⟩ := kv
    by_cases h0 : k0 = k
    · simp only [mapFind, if_pos h0, Option.some.injEq] at h
      simp [h0, h]
    · simp only [mapFind, if_neg h0] at h
      exact List.mem_cons_of_mem _ (ih h)

theorem allInv_erase (m : OrderMap) (k : Nat)
    (h : ∀ kv ∈ m, orderInv kv.2 = true) :
    ∀ kv ∈ mapErase m k, orderInv kv.2 = true :=
  fun kv hkv => h kv (mem_mapErase m k kv hkv)

theorem allInv_update (m : OrderMap) (k : Nat) (v : Order)
    (h : ∀ kv ∈ m, orderInv kv.2 = true) (hv : orderInv v = true) :
    ∀ kv ∈ mapUpdate m k v, orderInv kv.2 = true := by
  intro kv hkv
  rcases mem_mapUpdate m k v kv hkv with hm | he
  · exact h kv hm
  · rw [he]; exact hv

theorem allInv_emplace (m : OrderMap) (k : Nat) (v : Order)
    (h : ∀ kv ∈ m, orderInv kv.2 = true) (hv : orderInv v = true) :
    ∀ kv ∈ mapEmplace m k v, orderInv kv.2 = true := by
  intro kv hkv
  rcases mem_mapEmplace m k v kv hkv with hm | he
  · exact h kv hm
  · rw [he]; exact hv

theorem engineInv_iff (st : EngineState) :
    engineInv st = true ↔ ∀ kv ∈ st.order_map, orderInv kv.2 = true := by
  simp [engineInv, List.all_eq_true]

theorem send_order_map_cases (env : Env) (st : EngineState) (c : TraderCommand) :
    (send_order env st c).2.1.order_map = st.order_map ∨
    ∃ ctr, env.contract_table c.order_req.ticker_index = some ctr ∧
      (send_order env st c).2.1.order_map =
        mapEmplace st.order_map st.next_order_id (make_order ctr st.next_order_id c) := by
  unfold send_order
  cases hc : env.contract_table c.order_req.ticker_index with
  | none => left; rfl
  | some ctr =>
    by_cases hrc : c.order_req.without_check = false ∧
        env.risk_check (make_order ctr st.next_order_id c) ≠ NO_ERROR
    · left; simp [hrc]
    · by_cases hgw : env.gateway_accepts (make_order ctr st.next_order_id c).req = false
      · left; simp [hrc, hgw]
      · right; exact ⟨ctr, rfl, by simp [hrc, hgw]⟩

theorem execute_cmd_map_cases (env : Env) (st : EngineState) (c : TraderCommand) :
    (execute_cmd env st c).1 = st ∨
    (c.type = CMD_NEW_ORDER ∧ (execute_cmd env st c).1 = (send_order env st c).2.1) := by
  unfold execute_cmd
  by_cases hmg : c.magic ≠ TRADER_CMD_MAGIC
  · left; simp [hmg]
  · by_cases h1 : c.type = CMD_NEW_ORDER
    · right; exact ⟨h1, by simp [hmg, h1]⟩
    · left
      by_cases h2 : c.type = CMD_CANCEL_ORDER
      · simp [hmg, h1, h2, cancel_order, CMD_NEW_ORDER, CMD_CANCEL_ORDER]
      · by_cases h3 : c.type = CMD_CANCEL_TICKER
        · simp [hmg, h1, h2, h3, cancel_for_ticker, CMD_NEW_ORDER, CMD_CANCEL_ORDER,
            CMD_CANCEL_TICKER]
        · by_cases h4 : c.type = CMD_CANCEL_ALL
          · simp [hmg, h1, h2, h3, h4, cancel_all, CMD_NEW_ORDER, CMD_CANCEL_ORDER,
              CMD_CANCEL_TICKER, CMD_CANCEL_ALL]
          · simp [hmg, h1, h2, h3, h4]

theorem engineInv_step (env : Env) (st : EngineState) (a : Action)
    (hInv : engineInv st = true) (hV : validAction st a = true) :
    engineInv (engine_step env st a).1 = true := by
  have hm := (engineInv_iff st).mp hInv
  cases a with
  | cmd c =>
    have hvol : c.type = CMD_NEW_ORDER → 0 ≤ c.order_req.volume := by
      intro h1
      simpa [validAction, h1] using hV
    show engineInv (execute_cmd env st c).1 = true
    rcases execute_cmd_map_cases env st c with hce | ⟨h1, hce⟩
    · rw [hce]
      exact hInv
    · rw [hce, engineInv_iff]
      rcases send_order_map_cases env st c with hsc | ⟨ctr, _, hsc⟩
      · rw [hsc]; exact hm
      · rw [hsc]
        have hov : orderInv (make_order ctr st.next_order_id c) = true := by
          have hv := hvol h1
          simp [orderInv, make_order, decide_eq_true_eq]
          omega
        exact allInv_emplace _ _ _ hm hov
  | callback cb =>
    cases cb with
    | cancelRejected =>
      simpa [engine_step, run_callback, on_order_cancel_rejected] using hInv
    | accepted rsp =>
      cases hf : mapFind st.order_map rsp.engine_order_id with
      | none => simpa [engine_step, run_callback, on_order_accepted, hf] using hInv
      | some o =>
        by_cases ha : o.accepted
        · simpa [engine_step, run_callback, on_order_accepted, hf, ha] using hInv
        · have ho : orderInv o = true := hm _ (mapFind_mem _ _ _ hf)
          have ho2 : orderInv { o with order_id := rsp.order_id, accepted := true } = true := by
            simpa [orderInv] using ho
          have hst : (engine_step env st (Action.callback (Callback.accepted rsp))).1 =
              { st with order_map := mapUpdate st.order_map rsp.engine_order_id { o with order_id := rsp.order_id, accepted := true } } := by
            simp [engine_step, run_callback, on_order_accepted, hf, ha]
          rw [hst, engineInv_iff]
          exact allInv_update _ _ _ hm ho2
    | rejected rsp =>
      cases hf : mapFind st.order_map rsp.engine_order_id with
      | none => simpa [engine_step, run_callback, on_order_rejected, hf] using hInv
      | some o =>
        have hst : (engine_step env st (Action.callback (Callback.rejected rsp))).1 =
            { st with order_map := mapErase st.order_map rsp.engine_order_id } := by
          simp [engine_step, run_callback, on_order_rejected, hf]
        rw [hst, engineInv_iff]
        exact allInv_erase _ _ hm
    | canceled rsp =>
      cases hf : mapFind st.order_map rsp.engine_order_id with
      | none => simpa [engine_step, run_callback, on_order_canceled, hf] using hInv
      | some o =>
        have hvr : 0 ≤ rsp.canceled_volume ∧
            o.traded_volume + rsp.canceled_volume ≤ o.req.volume := by
          simpa [validAction, hf, Bool.and_eq_true, decide_eq_true_eq] using hV
        have ho : orderInv o = true := hm _ (mapFind_mem _ _ _ hf)
        have hoP : 0 ≤ o.traded_volume ∧ 0 ≤ o.canceled_volume ∧
            o.traded_volume + o.canceled_volume ≤ o.req.volume ∧
            o.status = OrderStatus.SUBMITTING := by
          simpa [orderInv, Bool.and_eq_true, decide_eq_true_eq, and_assoc] using ho
        by_cases ht : o.traded_volume + rsp.canceled_volume = o.req.volume
        · have hst : (engine_step env st (Action.callback (Callback.canceled rsp))).1 =
              { st with order_map := mapErase st.order_map rsp.engine_order_id } := by
            simp [engine_step, run_callback, on_order_canceled, hf, ht]
          rw [hst, engineInv_iff]
          exact allInv_erase _ _ hm
        · have ho2 : orderInv { o with canceled_volume := rsp.canceled_volume } = true := by
            simp only [orderInv, Bool.and_eq_true, decide_eq_true_eq]
            refine ⟨⟨⟨?_, ?_⟩, ?_⟩, ?_⟩
            · exact hoP.1
            · exact hvr.1
            · simpa using hvr.2
            · simpa using hoP.2.2.2
          have hst : (engine_step env st (Action.callback (Callback.canceled rsp))).1 =
              { st with order_map := mapUpdate st.order_map rsp.engine_order_id { o with canceled_volume := rsp.canceled_volume } } := by
            simp [engine_step, run_callback, on_order_canceled, hf, ht]
          rw [hst, engineInv_iff]
          exact allInv_update _ _ _ hm ho2
    | traded rsp =>
      by_cases htt : rsp.trade_type = TradeType.SECONDARY_MARKET
      · cases hf : mapFind st.order_map rsp.engine_order_id with
        | none =>
          simpa [engine_step, run_callback, on_order_traded, htt,
            on_secondary_market_traded, hf] using hInv
        | some o =>
          have hvr : 0 ≤ rsp.volume ∧
              o.traded_volume + o.canceled_volume + rsp.volume ≤ o.req.volume := by
            simpa [validAction, htt, hf, Bool.and_eq_true, decide_eq_true_eq] using hV
          have ho : orderInv o = true := hm _ (mapFind_mem _ _ _ hf)
          have hoP : 0 ≤ o.traded_volume ∧ 0 ≤ o.canceled_volume ∧
              o.traded_volume + o.canceled_volume ≤ o.req.volume ∧
              o.status = OrderStatus.SUBMITTING := by
            simpa [orderInv, Bool.and_eq_true, decide_eq_true_eq, and_assoc] using ho
          have hstep : ∀ (ord : Order) (evs : List Event),
              ord.traded_volume = o.traded_volume →
              ord.canceled_volume = o.canceled_volume → ord.req = o.req →
              ord.status = o.status →
              engineInv (secondary_update st rsp ord evs).1 = true := by
            intro ord evs hot hoc hor hos
            by_cases ht : ord.traded_volume + rsp.volume + ord.canceled_volume = ord.req.volume
            · have hst : (secondary_update st rsp ord evs).1 =
                  { st with order_map := mapErase st.order_map rsp.engine_order_id } := by
                simp [secondary_update, ht]
              rw [hst, engineInv_iff]
              exact allInv_erase _ _ hm
            · have ho2 : orderInv { ord with order_id := rsp.order_id, traded_volume := ord.traded_volume + rsp.volume } = true := by
                have hb1 := hoP.1
                have hb2 := hoP.2.1
                have hb3 := hvr.1
                have hb4 := hvr.2
                simp [orderInv, decide_eq_true_eq, hot, hoc, hor, hos, hoP.2.2.2]
                omega
              have hst : (secondary_update st rsp ord evs).1 =
                  { st with order_map := mapUpdate st.order_map rsp.engine_order_id { ord with order_id := rsp.order_id, traded_volume := ord.traded_volume + rsp.volume } } := by
                simp [secondary_update, ht]
              rw [hst, engineInv_iff]
              exact allInv_update _ _ _ hm ho2
          by_cases ha : o.accepted
          · have hrc : (engine_step env st (Action.callback (Callback.traded rsp))).1 =
                (secondary_update st rsp o []).1 := by
              simp [engine_step, run_callback, on_order_traded, htt,
                on_secondary_market_traded, hf, ha]
            rw [hrc]
            exact hstep o [] rfl rfl rfl rfl
          · have hrc : (engine_step env st (Action.callback (Callback.traded rsp))).1 =
                (secondary_update st rsp { o with accepted := true }
                  [Event.riskOnOrderAccepted rsp.engine_order_id]).1 := by
              simp [engine_step, run_callback, on_order_traded, htt,
                on_secondary_market_traded, hf, ha]
            rw [hrc]
            exact hstep { o with accepted := true } _ rfl rfl rfl rfl
      · cases hf : mapFind st.order_map rsp.engine_order_id with
        | none =>
          simpa [engine_step, run_callback, on_order_traded, htt,
            on_primary_market_traded, hf] using hInv
        | some o =>
          have ho : orderInv o = true := hm _ (mapFind_mem _ _ _ hf)
          have hstep : ∀ (ord : Order) (evs : List Event),
              ord.traded_volume = o.traded_volume →
              ord.canceled_volume = o.canceled_volume → ord.req = o.req →
              ord.status = o.status →
              engineInv (primary_update st rsp ord evs).1 = true := by
            intro ord evs hot hoc hor hos
            have ho2 : orderInv { ord with order_id := rsp.order_id } = true := by
              simpa [orderInv, hot, hoc, hor, hos] using ho
            cases htt2 : rsp.trade_type
            case PRIMARY_MARKET =>
              have hst : (primary_update st rsp ord evs).1 =
                  { st with order_map := mapErase st.order_map rsp.engine_order_id } := by
                simp [primary_update, htt2]
              rw [hst, engineInv_iff]
              exact allInv_erase _ _ hm
            all_goals
              have hst : (primary_update st rsp ord evs).1 =
                  { st with order_map := mapUpdate st.order_map rsp.engine_order_id { ord with order_id := rsp.order_id } } := by
                simp [primary_update, htt2]
              rw [hst, engineInv_iff]
              exact allInv_update _ _ _ hm ho2
          by_cases ha : o.accepted
          · have hrc : (engine_step env st (Action.callback (Callback.traded rsp))).1 =
                (primary_update st rsp o []).1 := by
              simp [engine_step, run_callback, on_order_traded, htt,
                on_primary_market_traded, hf, ha]
            rw [hrc]
            exact hstep o [] rfl rfl rfl rfl
          · have hrc : (engine_step env st (Action.callback (Callback.traded rsp))).1 =
                (primary_update st rsp { o with accepted := true }
                  [Event.riskOnOrderAccepted rsp.engine_order_id]).1 := by
              simp [engine_step, run_callback, on_order_traded, htt,
                on_primary_market_traded, hf, ha]
            rw [hrc]
            exact hstep { o with accepted := true } _ rfl rfl rfl rfl

theorem engineInv_run (env : Env) : ∀ (as : List Action) (st : EngineState),
    engineInv st = true → validRun env st as = true →
    engineInv (engine_run env st as).1 = true := by
  intro as
  induction as with
  | nil => intro st h _; simpa [engine_run] using h
  | cons a rest ih =>
    intro st h hv
    simp only [validRun, Bool.and_eq_true] at hv
    have h1 := engineInv_step env st a h hv.1
    simpa [engine_run] using ih _ h1 hv.2

/-- New order for 10 lots, then a broker accept, then a secondary-market
fill of 11 lots: an overfill a broken gateway can deliver. -/
def actsOverfill : List Action :=
  [Action.cmd cmdEx,
   Action.callback (Callback.accepted { engine_order_id := 1, order_id := 555 }),
   Action.callback (Callback.traded { engine_order_id := 1, order_id := 555, trade_type := TradeType.SECONDARY_MARKET, volume := 11, price := 100 })]

/-- Counterexample to claim C2: after a send_order command for 10 lots, a
broker accept and a secondary fill of 11 lots (a sequence of send_order
commands and gateway callbacks), the registry holds an order with
traded_volume + canceled_volume = 11 > 10 = req.volume, and with
accepted = true while status is still SUBMITTING; both claimed invariants
fail (the code neither bounds the accumulated volume nor ever updates
status after creation). -/
theorem overfill_and_submitting_violate_claimed_invariant :
    ∃ o, mapFind (engine_run envEx stEmpty actsOverfill).1.order_map 1 = some o ∧
      o.accepted = true ∧ o.status = OrderStatus.SUBMITTING ∧
      o.req.volume = 10 ∧ o.traded_volume + o.canceled_volume = 11 ∧
      ¬ (o.traded_volume + o.canceled_volume ≤ o.req.volume) := by
  refine ⟨_, rfl, rfl, rfl, rfl, by decide, by decide⟩

/-- Claim C2 (amended): started from a state satisfying the registry
invariant, and fed commands with nonnegative volumes and gateway callbacks
whose fills and cancels stay within the outstanding volume, every Order in
the registry satisfies 0 ≤ traded_volume + canceled_volume ≤ req.volume at
every point between operations; the status field however remains SUBMITTING
for the order's whole registry lifetime (the code never updates it), so
acceptance is tracked solely by the accepted flag and the claimed
implication accepted ⇒ status ≠ SUBMITTING does not hold. -/
theorem registry_invariant_preserved (env : Env) (st : EngineState) (as : List Action)
    (hInv : engineInv st = true) (hV : validRun env st as = true) :
    engineInv (engine_run env st as).1 = true ∧
    ∀ kv ∈ (engine_run env st as).1.order_map,
      0 ≤ kv.2.traded_volume + kv.2.canceled_volume ∧
      kv.2.traded_volume + kv.2.canceled_volume ≤ kv.2.req.volume ∧
      kv.2.status = OrderStatus.SUBMITTING := by
  have h1 := engineInv_run env as st hInv hV
  refine ⟨h1, ?_⟩
  intro kv hkv
  have h2 := (engineInv_iff _).mp h1 kv hkv
  simp only [orderInv, Bool.and_eq_true, decide_eq_true_eq] at h2
  obtain ⟨⟨⟨ha, hb⟩, hc⟩, hd⟩ := h2
  exact ⟨by omega, hc, hd⟩

/-- The spec §8 scenario-3 action sequence: submit 10 lots, accept, fill 4,
cancel the remaining 6. -/
def actsHappy : List Action :=
  [Action.cmd cmdEx,
   Action.callback (Callback.accepted { engine_order_id := 1, order_id := 555 }),
   Action.callback (Callback.traded { engine_order_id := 1, order_id := 555, trade_type := TradeType.SECONDARY_MARKET, volume := 4, price := 100 }),
   Action.callback (Callback.canceled { engine_order_id := 1, canceled_volume := 6 })]

/-- Concrete instance of claim C2 (amended) on the submit/accept/fill/cancel
run. -/
theorem registry_invariant_preserved_witness :
    engineInv stEmpty = true ∧ validRun envEx stEmpty actsHappy = true ∧
    (engineInv (engine_run envEx stEmpty actsHappy).1 = true ∧
     ∀ kv ∈ (engine_run envEx stEmpty actsHappy).1.order_map,
       0 ≤ kv.2.traded_volume + kv.2.canceled_volume ∧
       kv.2.traded_volume + kv.2.canceled_volume ≤ kv.2.req.volume ∧
       kv.2.status = OrderStatus.SUBMITTING) :=
  ⟨by decide, by decide,
   registry_invariant_preserved envEx stEmpty actsHappy (by decide) (by decide)⟩

end ft
